import Mathlib

/-!
# Verification of the NorasWorkday terrain core

A shallow embedding, in Lean 4, of the terrain subsystem of the NorasWorkday
repository (`SRC/TERRAIN/T_MAP.cpp`, `T_COLL.cpp`, `T_DLNAY.CPP`), together
with theorems settling the specification claims about it.

Modelling conventions:

* C `float`/`double` arithmetic is idealised as exact rational arithmetic
  (`ℚ`); `u8`/`u16`/`u32` raster values are `ℕ`; C `int` quantities are `ℤ`.
* C's `floor` on a nonnegative-width grid is `Int.floor`; a C cast from a
  floating value to an integer type truncates towards zero (`truncQ` below).
* The C math-library functions `sqrt`, `sin`, `cos` and the libc `rand`
  stream (after `srand(0)`) are external to the repository; they enter the
  embedding as parameters (`sq`, `sinQ`, `cosQ` : `ℚ → ℚ`, and `rnd : ℕ → ℕ`
  read at an explicit stream position).  Theorems either hold for every such
  function or pin it down only on the inputs actually consumed.
* `Array<T>::push_back` is list append; the `resize`/index-write pattern of
  `setHeightMap` (grow, write a prefix in order, shrink to the written count)
  is likewise an in-order append of the written records.
* libc `qsort` is modelled as a sorting function for its comparator: the
  output is some arrangement of the input that is ordered by the comparator.
  We realise it by insertion sort (`sortLe`); the claims below only concern
  the ordering of the result.
-/

/-- C cast of a floating value to an integer type: truncation towards zero. -/
def truncQ (q : ℚ) : ℤ := if 0 ≤ q then ⌊q⌋ else ⌈q⌉

theorem truncQ_intCast (n : ℤ) : truncQ (n : ℚ) = n := by
  unfold truncQ
  split <;> simp

theorem truncQ_nonneg (q : ℚ) (h : 0 ≤ q) : truncQ q = ⌊q⌋ := by
  unfold truncQ
  simp [h]

/-- Insertion into a list ordered by the boolean comparator `le`. -/
def insertLe {α : Type} (le : α → α → Bool) (a : α) : List α → List α
  | [] => [a]
  | b :: l => if le a b then a :: b :: l else b :: insertLe le a l

/-- Insertion sort by the boolean comparator `le`; this is our model of
`qsort(base, n, size, cmp)`: an output ordered by the comparator. -/
def sortLe {α : Type} (le : α → α → Bool) : List α → List α
  | [] => []
  | a :: l => insertLe le a (sortLe le l)

theorem mem_insertLe {α : Type} (le : α → α → Bool) (a c : α) (l : List α) :
    c ∈ insertLe le a l ↔ c = a ∨ c ∈ l := by
  induction l with
  | nil => simp [insertLe]
  | cons b t ih =>
    rw [insertLe]
    split
    · simp [or_comm, or_assoc, or_left_comm]
    · simp only [List.mem_cons, ih]
      tauto

theorem insertLe_pairwise {α : Type} (le : α → α → Bool)
    (htot : ∀ a b, le a b = true ∨ le b a = true)
    (htrans : ∀ a b c, le a b = true → le b c = true → le a c = true)
    (a : α) (l : List α) (hl : l.Pairwise (fun x y => le x y = true)) :
    (insertLe le a l).Pairwise (fun x y => le x y = true) := by
  induction l with
  | nil => simp [insertLe]
  | cons b t ih =>
    rw [List.pairwise_cons] at hl
    by_cases hab : le a b = true
    · rw [insertLe, if_pos hab]
      refine List.pairwise_cons.2 ⟨?_, List.pairwise_cons.2 ⟨hl.1, hl.2⟩⟩
      intro c hc
      rcases List.mem_cons.1 hc with hc | hc
      · exact hc ▸ hab
      · exact htrans a b c hab (hl.1 c hc)
    · rw [insertLe, if_neg hab]
      refine List.pairwise_cons.2 ⟨?_, ih hl.2⟩
      intro c hc
      rcases (mem_insertLe le a c t).1 hc with hc | hc
      · rcases htot a b with h | h
        · exact absurd h hab
        · exact hc ▸ h
      · exact hl.1 c hc

theorem sortLe_pairwise {α : Type} (le : α → α → Bool)
    (htot : ∀ a b, le a b = true ∨ le b a = true)
    (htrans : ∀ a b c, le a b = true → le b c = true → le a c = true)
    (l : List α) : (sortLe le l).Pairwise (fun x y => le x y = true) := by
  induction l with
  | nil => simp [sortLe]
  | cons a t ih =>
    rw [sortLe]
    exact insertLe_pairwise le htot htrans a _ ih

/-!
## `LandscapeCollision` (T_COLL.cpp)

A 2D `u8` collision field with its own world bounds.  `width`/`height` are
C `int`s that are positive for every constructed field; the unsigned-compare
range checks of the source are modelled for that case.
-/

structure LandscapeCollision where
  width : ℕ
  height : ℕ
  minX : ℚ
  maxX : ℚ
  minZ : ℚ
  maxZ : ℚ
  /-- the `u8` field, row-major (`data[x + z*width]`), as built by the ctor
  (zeroed) and the stamping procedures. -/
  data : List ℕ

/-- `LandscapeCollision::xCoord`: world X to column index, floored, unclamped. -/
def xCoord (C : LandscapeCollision) (x : ℚ) : ℤ :=
  ⌊(x - C.minX) * C.width / (C.maxX - C.minX)⌋

/-- `LandscapeCollision::xPos`: column index to world X. -/
def xPos (C : LandscapeCollision) (x : ℤ) : ℚ :=
  (x : ℚ) * (C.maxX - C.minX) / C.width + C.minX

/-- `LandscapeCollision::zCoord`: world Z to row index, floored, unclamped. -/
def zCoord (C : LandscapeCollision) (z : ℚ) : ℤ :=
  ⌊(z - C.minZ) * C.height / (C.maxZ - C.minZ)⌋

/-- `LandscapeCollision::zPos`: row index to world Z. -/
def zPos (C : LandscapeCollision) (z : ℤ) : ℚ :=
  (z : ℚ) * (C.maxZ - C.minZ) / C.height + C.minZ

/-- `LandscapeCollision::point`: bilinear sample of the field at a world
position; 255 outside the valid corner range (the source's unsigned compare
`(unsigned)xp >= width-1`, i.e. `xp < 0 || xp >= width-1` for `width ≥ 1`). -/
def point (C : LandscapeCollision) (x z : ℚ) : ℚ :=
  let x2 := (x - C.minX) * C.width / (C.maxX - C.minX)
  let z2 := (z - C.minZ) * C.height / (C.maxZ - C.minZ)
  let xp := ⌊x2⌋
  let zp := ⌊z2⌋
  if xp < 0 ∨ (C.width : ℤ) - 1 ≤ xp then 255
  else if zp < 0 ∨ (C.height : ℤ) - 1 ≤ zp then 255
  else
    let fx := x2 - (xp : ℚ)
    let fz := z2 - (zp : ℚ)
    let v00 := (C.data.getD (xp.toNat + zp.toNat * C.width) 0 : ℚ)
    let v10 := (C.data.getD ((xp.toNat + 1) + zp.toNat * C.width) 0 : ℚ)
    let v11 := (C.data.getD ((xp.toNat + 1) + (zp.toNat + 1) * C.width) 0 : ℚ)
    let v01 := (C.data.getD (xp.toNat + (zp.toNat + 1) * C.width) 0 : ℚ)
    let up := (v10 - v00) * fx + v00
    let dn := (v11 - v01) * fx + v01
    (dn - up) * fz + up

/-- `LandscapeCollision::isPoint`: solid iff the interpolated field is ≥ 128. -/
def isPoint (C : LandscapeCollision) (x z : ℚ) : Bool :=
  decide (128 ≤ point C x z)

/-- `LandscapeCollision::normal` (both output pointers non-NULL), `sq`
standing for the C library `sqrt`. -/
def normal (sq : ℚ → ℚ) (C : LandscapeCollision) (x z : ℚ) : ℚ × ℚ :=
  let dx := (C.maxX - C.minX) / C.width * (1/2)
  let dz := (C.maxZ - C.minZ) / C.height * (1/2)
  let ax := point C (x + dx) z - point C (x - dx) z
  let az := point C x (z + dz) - point C x (z - dz)
  let d0 := sq (ax * ax + az * az)
  let d := if d0 ≠ 0 then 1 / d0 else d0
  (-ax * d, -az * d)

/-- The stepping loop of `LandscapeCollision::collideLine`, with an explicit
iteration budget (the source's `while(1)`; `none` means the budget ran out
before the loop returned).  Result: `(hit, xh, zh, xn, zn)`. -/
def collideLoop (sq : ℚ → ℚ) (C : LandscapeCollision) (x0 z0 xd zd step d : ℚ) :
    ℕ → ℚ → ℚ → Option (Bool × ℚ × ℚ × ℚ × ℚ)
  | 0, _, _ => none
  | fuel + 1, xp, zp =>
    let lx := xp
    let lz := zp
    let xp2 := xp + xd * step
    let zp2 := zp + zd * step
    let dx := xp2 - x0
    let dz := zp2 - z0
    if d < sq (dx * dx + dz * dz) then
      if isPoint C xp2 zp2 then
        some (true, lx, lz, (normal sq C lx lz).1, (normal sq C lx lz).2)
      else some (false, 0, 0, 0, 0)
    else if isPoint C xp2 zp2 then
      some (true, lx, lz, (normal sq C lx lz).1, (normal sq C lx lz).2)
    else collideLoop sq C x0 z0 xd zd step d fuel xp2 zp2

/-- `LandscapeCollision::collideLine` (all four output pointers non-NULL;
they are zeroed on entry, hence the `0` components on the no-hit paths).
`sq` stands for the C library `sqrt`. -/
def collideLine (sq : ℚ → ℚ) (C : LandscapeCollision) (fuel : ℕ)
    (x0 z0 x1 z1 : ℚ) : Option (Bool × ℚ × ℚ × ℚ × ℚ) :=
  if isPoint C x0 z0 then some (false, 0, 0, 0, 0)
  else
    let xd := x1 - x0
    let zd := z1 - z0
    let d := sq (xd * xd + zd * zd)
    -- `if (fabs(d) < 0.00001) ... return hit;` with `hit = false` here
    if |d| < 1 / 100000 then some (false, 0, 0, 0, 0)
    else
      let xd2 := xd / d
      let zd2 := zd / d
      let stepX := (C.maxX - C.minX) / C.width
      let stepZ := (C.maxZ - C.minZ) / C.height
      let step0 := if stepZ < stepX then stepZ * (1/2) else stepX * (1/2)
      let step := step0 * (1/10)
      collideLoop sq C x0 z0 xd2 zd2 step d fuel x0 z0

/-!
## Claims C9 and C5
-/

/-- Claim C9: for every column index `0 ≤ c < W` the coordinate mapping
round-trips, `xCoord (xPos c) = c`, and likewise `zCoord (zPos r) = r` for
every row index `0 ≤ r < H`, for any world bounds with `minX < maxX` and
`minZ < maxZ`. -/
theorem claim_c9_coord_roundtrip (C : LandscapeCollision) (c r : ℤ)
    (hbx : C.minX < C.maxX) (hbz : C.minZ < C.maxZ)
    (hc0 : 0 ≤ c) (hcW : c < (C.width : ℤ)) (hr0 : 0 ≤ r) (hrH : r < (C.height : ℤ)) :
    xCoord C (xPos C c) = c ∧ zCoord C (zPos C r) = r := by
  have hW : (0 : ℚ) < (C.width : ℚ) := by
    have : (0 : ℤ) < (C.width : ℤ) := lt_of_le_of_lt hc0 hcW
    exact_mod_cast this
  have hH : (0 : ℚ) < (C.height : ℚ) := by
    have : (0 : ℤ) < (C.height : ℤ) := lt_of_le_of_lt hr0 hrH
    exact_mod_cast this
  have hdx : C.maxX - C.minX ≠ 0 := sub_ne_zero.2 (ne_of_gt hbx)
  have hdz : C.maxZ - C.minZ ≠ 0 := sub_ne_zero.2 (ne_of_gt hbz)
  constructor
  · unfold xCoord xPos
    have : ((c : ℚ) * (C.maxX - C.minX) / (C.width : ℚ) + C.minX - C.minX) *
        (C.width : ℚ) / (C.maxX - C.minX) = (c : ℚ) := by
      field_simp
      ring
    rw [this, Int.floor_intCast]
  · unfold zCoord zPos
    have : ((r : ℚ) * (C.maxZ - C.minZ) / (C.height : ℚ) + C.minZ - C.minZ) *
        (C.height : ℚ) / (C.maxZ - C.minZ) = (r : ℚ) := by
      field_simp
      ring
    rw [this, Int.floor_intCast]

/-- Witness for C9 at a concrete field: bounds `0..10 × 0..10`, `W = H = 4`,
column 3 and row 2. -/
theorem claim_c9_coord_roundtrip_witness :
    xCoord ⟨4, 4, 0, 10, 0, 10, []⟩ (xPos ⟨4, 4, 0, 10, 0, 10, []⟩ 3) = 3 ∧
    zCoord ⟨4, 4, 0, 10, 0, 10, []⟩ (zPos ⟨4, 4, 0, 10, 0, 10, []⟩ 2) = 2 :=
  claim_c9_coord_roundtrip ⟨4, 4, 0, 10, 0, 10, []⟩ 3 2 (by norm_num) (by norm_num)
    (by norm_num) (by norm_num) (by norm_num) (by norm_num)


/-- Claim C5: whenever the start position of the segment is solid
(interpolated field value ≥ 128), `collideLine` returns false — no hit —
whatever the end position (and whatever `sqrt` and the iteration budget). -/
theorem claim_c5_collideLine_startSolid (sq : ℚ → ℚ) (C : LandscapeCollision)
    (fuel : ℕ) (x0 z0 x1 z1 : ℚ) (h : isPoint C x0 z0 = true) :
    collideLine sq C fuel x0 z0 x1 z1 = some (false, 0, 0, 0, 0) := by
  unfold collideLine
  rw [if_pos h]

/-- The concrete collision field used by several examples below: `2 × 2`
cells over world bounds `0..40 × 0..40`, with field values
`data[0,0] = 0, data[1,0] = 255, data[0,1] = 0, data[1,1] = 255`, so inside
the valid sampling square `[0,20) × [0,20)` the bilinear sample is
`255 * x / 20`. -/
def collFieldEx : LandscapeCollision := ⟨2, 2, 0, 40, 0, 40, [0, 255, 0, 255]⟩

theorem collFieldEx_point (x z : ℚ) (hx0 : 0 ≤ x) (hx1 : x < 20)
    (hz0 : 0 ≤ z) (hz1 : z < 20) : point collFieldEx x z = 255 * (x / 20) := by
  have hx2 : (x - (0:ℚ)) * ((2:ℕ) : ℚ) / (40 - 0) = x / 20 := by
    push_cast
    ring
  have hz2 : (z - (0:ℚ)) * ((2:ℕ) : ℚ) / (40 - 0) = z / 20 := by
    push_cast
    ring
  have hfx : ⌊x / 20⌋ = 0 := by
    rw [Int.floor_eq_zero_iff]
    constructor
    · positivity
    · rw [div_lt_one (by norm_num)]
      linarith
  have hfz : ⌊z / 20⌋ = 0 := by
    rw [Int.floor_eq_zero_iff]
    constructor
    · positivity
    · rw [div_lt_one (by norm_num)]
      linarith
  show point ⟨2, 2, 0, 40, 0, 40, [0, 255, 0, 255]⟩ x z = 255 * (x / 20)
  unfold point
  simp only [hx2, hz2, hfx, hfz]
  norm_num [List.getD]

/-- Witness for C5 on the concrete field: the start `(15,10)` samples the
field at `255·15/20 = 191.25 ≥ 128`, so it is solid and the line to
`(39,10)` reports no hit. -/
theorem claim_c5_collideLine_startSolid_witness :
    isPoint collFieldEx 15 10 = true ∧
    collideLine (fun _ => 0) collFieldEx 50 15 10 39 10 = some (false, 0, 0, 0, 0) := by
  have h : isPoint collFieldEx 15 10 = true := by
    unfold isPoint
    rw [collFieldEx_point 15 10 (by norm_num) (by norm_num) (by norm_num) (by norm_num)]
    norm_num
  exact ⟨h, claim_c5_collideLine_startSolid (fun _ => 0) collFieldEx 50 15 10 39 10 h⟩

/-!
## Claim C4: the termination behaviour of `collideLine`

Derived quantities of the stepping loop: the code-computed ray length, the
normalised direction, the step size, and the `n`-th sampled position.
-/

/-- The ray length `d = sqrt(xd²+zd²)` as computed by `collideLine`. -/
def rayLen (sq : ℚ → ℚ) (x0 z0 x1 z1 : ℚ) : ℚ :=
  sq ((x1 - x0) * (x1 - x0) + (z1 - z0) * (z1 - z0))

/-- The normalised X direction `xd/d` as computed by `collideLine`. -/
def rayDirX (sq : ℚ → ℚ) (x0 z0 x1 z1 : ℚ) : ℚ := (x1 - x0) / rayLen sq x0 z0 x1 z1

/-- The normalised Z direction `zd/d` as computed by `collideLine`. -/
def rayDirZ (sq : ℚ → ℚ) (x0 z0 x1 z1 : ℚ) : ℚ := (z1 - z0) / rayLen sq x0 z0 x1 z1

/-- The step size of the `collideLine` loop: a tenth of half the smaller
cell extent. -/
def rayStep (C : LandscapeCollision) : ℚ :=
  let stepX := (C.maxX - C.minX) / C.width
  let stepZ := (C.maxZ - C.minZ) / C.height
  (if stepZ < stepX then stepZ * (1/2) else stepX * (1/2)) * (1/10)

/-- The X coordinate of the `n`-th position sampled by the loop. -/
def raySampleX (sq : ℚ → ℚ) (C : LandscapeCollision) (x0 z0 x1 z1 : ℚ) (n : ℕ) : ℚ :=
  x0 + rayDirX sq x0 z0 x1 z1 * rayStep C * n

/-- The Z coordinate of the `n`-th position sampled by the loop. -/
def raySampleZ (sq : ℚ → ℚ) (C : LandscapeCollision) (x0 z0 x1 z1 : ℚ) (n : ℕ) : ℚ :=
  z0 + rayDirZ sq x0 z0 x1 z1 * rayStep C * n

/-- Sample `n` lies past the ray's end: the loop's exit test
`sqrt(dx²+dz²) > d` holds there. -/
def rayOver (sq : ℚ → ℚ) (C : LandscapeCollision) (x0 z0 x1 z1 : ℚ) (n : ℕ) : Prop :=
  rayLen sq x0 z0 x1 z1 <
    sq ((raySampleX sq C x0 z0 x1 z1 n - x0) * (raySampleX sq C x0 z0 x1 z1 n - x0) +
      (raySampleZ sq C x0 z0 x1 z1 n - z0) * (raySampleZ sq C x0 z0 x1 z1 n - z0))

/-- Sample `n` is solid. -/
def raySolid (sq : ℚ → ℚ) (C : LandscapeCollision) (x0 z0 x1 z1 : ℚ) (n : ℕ) : Prop :=
  isPoint C (raySampleX sq C x0 z0 x1 z1 n) (raySampleZ sq C x0 z0 x1 z1 n) = true

/-- The loop of `collideLine` stops at `nstar`, the first sample index past
the ray's end, unless it finds a solid sample first; it reports a hit
exactly when one of the samples `1..nstar` — including the final sample,
which lies beyond the segment's end — is solid. -/
theorem collideLoop_hit_iff (sq : ℚ → ℚ) (C : LandscapeCollision)
    (x0 z0 xd zd step d : ℚ) (nstar : ℕ) :
    ∀ (fuel k : ℕ) (xp zp : ℚ),
      xp = x0 + xd * step * k → zp = z0 + zd * step * k →
      k < nstar → nstar ≤ k + fuel →
      (d < sq ((x0 + xd * step * nstar - x0) * (x0 + xd * step * nstar - x0) +
        (z0 + zd * step * nstar - z0) * (z0 + zd * step * nstar - z0))) →
      (∀ m : ℕ, k < m → m < nstar →
        ¬(d < sq ((x0 + xd * step * m - x0) * (x0 + xd * step * m - x0) +
          (z0 + zd * step * m - z0) * (z0 + zd * step * m - z0)))) →
      ∃ r, collideLoop sq C x0 z0 xd zd step d fuel xp zp = some r ∧
        (r.1 = true ↔ ∃ j : ℕ, k < j ∧ j ≤ nstar ∧
          isPoint C (x0 + xd * step * j) (z0 + zd * step * j) = true) := by
  intro fuel
  induction fuel with
  | zero => intro k xp zp _ _ hk hle _ _; omega
  | succ f ih =>
    intro k xp zp hxp hzp hk hle hP hPmin
    have hxp2 : xp + xd * step = x0 + xd * step * ((k + 1 : ℕ) : ℚ) := by
      rw [hxp]; push_cast; ring
    have hzp2 : zp + zd * step = z0 + zd * step * ((k + 1 : ℕ) : ℚ) := by
      rw [hzp]; push_cast; ring
    rw [collideLoop]
    simp only [hxp2, hzp2]
    by_cases hov : d < sq ((x0 + xd * step * ((k + 1 : ℕ) : ℚ) - x0) *
        (x0 + xd * step * ((k + 1 : ℕ) : ℚ) - x0) +
        (z0 + zd * step * ((k + 1 : ℕ) : ℚ) - z0) *
        (z0 + zd * step * ((k + 1 : ℕ) : ℚ) - z0))
    · rw [if_pos hov]
      have hstar : nstar = k + 1 := by
        by_contra hne
        have hlt : k + 1 < nstar := by omega
        exact hPmin (k + 1) (by omega) hlt hov
      by_cases hsol : isPoint C (x0 + xd * step * ((k + 1 : ℕ) : ℚ))
          (z0 + zd * step * ((k + 1 : ℕ) : ℚ)) = true
      · rw [if_pos hsol]
        refine ⟨_, rfl, ?_⟩
        simp only [true_iff]
        exact ⟨k + 1, by omega, by omega, hsol⟩
      · rw [if_neg hsol]
        refine ⟨_, rfl, ?_⟩
        simp only [Bool.false_eq_true, false_iff]
        rintro ⟨j, hj1, hj2, hj3⟩
        have : j = k + 1 := by omega
        exact hsol (this ▸ hj3)
    · rw [if_neg hov]
      by_cases hsol : isPoint C (x0 + xd * step * ((k + 1 : ℕ) : ℚ))
          (z0 + zd * step * ((k + 1 : ℕ) : ℚ)) = true
      · rw [if_pos hsol]
        refine ⟨_, rfl, ?_⟩
        simp only [true_iff]
        exact ⟨k + 1, by omega, by omega, hsol⟩
      · rw [if_neg hsol]
        have hk1 : k + 1 < nstar := by
          rcases Nat.lt_or_ge (k + 1) nstar with h | h
          · exact h
          · have : nstar = k + 1 := by omega
            exact absurd (this ▸ hP) hov
        obtain ⟨r, hr, hiff⟩ := ih (k + 1) _ _ rfl rfl hk1 (by omega) hP
          (fun m hm1 hm2 => hPmin m (by omega) hm2)
        refine ⟨r, hr, hiff.trans ?_⟩
        constructor
        · rintro ⟨j, hj1, hj2, hj3⟩
          exact ⟨j, by omega, hj2, hj3⟩
        · rintro ⟨j, hj1, hj2, hj3⟩
          rcases Nat.lt_or_ge (k + 1) j with h | h
          · exact ⟨j, h, hj2, hj3⟩
          · have : j = k + 1 := by omega
            exact absurd (this ▸ hj3) hsol

theorem collideLine_eq_loop (sq : ℚ → ℚ) (C : LandscapeCollision) (fuel : ℕ)
    (x0 z0 x1 z1 : ℚ) (hstart : isPoint C x0 z0 = false)
    (hd : ¬ |rayLen sq x0 z0 x1 z1| < 1 / 100000) :
    collideLine sq C fuel x0 z0 x1 z1 =
      collideLoop sq C x0 z0 (rayDirX sq x0 z0 x1 z1) (rayDirZ sq x0 z0 x1 z1)
        (rayStep C) (rayLen sq x0 z0 x1 z1) fuel x0 z0 := by
  unfold rayDirX rayDirZ rayStep rayLen at *
  unfold collideLine
  rw [if_neg (by simp [hstart]), if_neg hd]

theorem collideLine_stop_iff (sq : ℚ → ℚ) (C : LandscapeCollision)
    (x0 z0 x1 z1 : ℚ) (nstar fuel : ℕ)
    (hstart : isPoint C x0 z0 = false)
    (hd : ¬ |rayLen sq x0 z0 x1 z1| < 1 / 100000)
    (h1 : 1 ≤ nstar)
    (hP : rayOver sq C x0 z0 x1 z1 nstar)
    (hPmin : ∀ m : ℕ, 1 ≤ m → m < nstar → ¬ rayOver sq C x0 z0 x1 z1 m)
    (hfuel : nstar ≤ fuel) :
    ∃ r, collideLine sq C fuel x0 z0 x1 z1 = some r ∧
      (r.1 = true ↔ ∃ j : ℕ, 1 ≤ j ∧ j ≤ nstar ∧ raySolid sq C x0 z0 x1 z1 j) := by
  rw [collideLine_eq_loop sq C fuel x0 z0 x1 z1 hstart hd]
  have hx0 : x0 = x0 + rayDirX sq x0 z0 x1 z1 * rayStep C * ((0 : ℕ) : ℚ) := by
    push_cast
    ring
  have hz0 : z0 = z0 + rayDirZ sq x0 z0 x1 z1 * rayStep C * ((0 : ℕ) : ℚ) := by
    push_cast
    ring
  obtain ⟨r, hr, hiff⟩ := collideLoop_hit_iff sq C x0 z0 (rayDirX sq x0 z0 x1 z1)
    (rayDirZ sq x0 z0 x1 z1) (rayStep C) (rayLen sq x0 z0 x1 z1) nstar fuel 0 x0 z0
    hx0 hz0 (by omega) (by omega) hP (fun m hm1 hm2 => hPmin m (by omega) hm2)
  exact ⟨r, hr, hiff⟩

/-- Amended claim C4: `collideLine` from a non-solid start with a
non-degenerate length `d` stops at `nstar`, the first sample index whose
code-computed distance from the start exceeds `d` (a sample that lies past
the segment's end), unless a solid sample stops it earlier; it reports a hit
exactly when some sampled position with index `1..nstar` — including the one
sample past the end — is solid.  In particular "no solid sample strictly
before the end" does not imply "no hit". -/
theorem claim_c4_amended_hit_iff (sq : ℚ → ℚ) (C : LandscapeCollision)
    (x0 z0 x1 z1 : ℚ) (nstar fuel : ℕ)
    (hstart : isPoint C x0 z0 = false)
    (hd : ¬ |rayLen sq x0 z0 x1 z1| < 1 / 100000)
    (h1 : 1 ≤ nstar)
    (hP : rayOver sq C x0 z0 x1 z1 nstar)
    (hPmin : ∀ m : ℕ, 1 ≤ m → m < nstar → ¬ rayOver sq C x0 z0 x1 z1 m)
    (hfuel : nstar ≤ fuel) :
    ∃ r, collideLine sq C fuel x0 z0 x1 z1 = some r ∧
      (r.1 = true ↔ ∃ j : ℕ, 1 ≤ j ∧ j ≤ nstar ∧ raySolid sq C x0 z0 x1 z1 j) :=
  collideLine_stop_iff sq C x0 z0 x1 z1 nstar fuel hstart hd h1 hP hPmin hfuel

/-- An explicit square-root oracle for the `collideLine` examples below.  It
agrees with the real square root on every value the executed code path
consumes (`1/4 ↦ 1/2` for the ray length, `1 ↦ 1` for the first sampled
distance), and — like the real square root — it keeps all remaining sample
distances `j²` (`j ≥ 1`) strictly above `1/2`, which is all the statements
use about the other inputs. -/
def sqrtEx : ℚ → ℚ := fun q => if q = 1/4 then 1/2 else q

theorem collideCex_len : rayLen sqrtEx 10 10 (21/2) 10 = 1/2 := by
  unfold rayLen sqrtEx
  norm_num

theorem collideCex_dirX : rayDirX sqrtEx 10 10 (21/2) 10 = 1 := by
  unfold rayDirX
  rw [collideCex_len]
  norm_num

theorem collideCex_dirZ : rayDirZ sqrtEx 10 10 (21/2) 10 = 0 := by
  unfold rayDirZ
  rw [collideCex_len]
  norm_num

theorem collideCex_step : rayStep collFieldEx = 1 := by
  unfold rayStep collFieldEx
  norm_num

theorem collideCex_start : isPoint collFieldEx 10 10 = false := by
  unfold isPoint
  rw [collFieldEx_point 10 10 (by norm_num) (by norm_num) (by norm_num) (by norm_num)]
  rw [decide_eq_false_iff_not]
  norm_num

theorem collideCex_over (j : ℕ) (hj : 1 ≤ j) :
    rayOver sqrtEx collFieldEx 10 10 (21/2) 10 j := by
  unfold rayOver raySampleX raySampleZ
  rw [collideCex_len, collideCex_dirX, collideCex_dirZ, collideCex_step]
  have hj1 : (1 : ℚ) ≤ (j : ℚ) := by exact_mod_cast hj
  have harg : (10 + 1 * 1 * (j:ℚ) - 10) * (10 + 1 * 1 * (j:ℚ) - 10) +
      (10 + 0 * 1 * (j:ℚ) - 10) * (10 + 0 * 1 * (j:ℚ) - 10) = (j:ℚ) * j := by
    ring
  rw [harg]
  unfold sqrtEx
  have hne : (j : ℚ) * j ≠ 1/4 := by
    intro h
    nlinarith
  rw [if_neg hne]
  nlinarith

theorem collideCex_solid1 : raySolid sqrtEx collFieldEx 10 10 (21/2) 10 1 := by
  unfold raySolid raySampleX raySampleZ
  rw [collideCex_dirX, collideCex_dirZ, collideCex_step]
  have hx : (10 : ℚ) + 1 * 1 * ((1:ℕ) : ℚ) = 11 := by norm_num
  have hz : (10 : ℚ) + 0 * 1 * ((1:ℕ) : ℚ) = 10 := by norm_num
  rw [hx, hz]
  unfold isPoint
  rw [collFieldEx_point 11 10 (by norm_num) (by norm_num) (by norm_num) (by norm_num)]
  rw [decide_eq_true_eq]
  norm_num

/-- Counterexample to claim C4 as stated: on the concrete field, the segment
from `(10,10)` to `(10.5,10)` starts non-solid, every sampled position that
is not yet past the ray's length is (vacuously) non-solid — the very first
sample already overshoots the 0.5-long segment — and yet `collideLine`
reports a hit, because the code also tests the one sample past the end. -/
theorem claim_c4_counterexample :
    isPoint collFieldEx 10 10 = false ∧
    (∀ j : ℕ, 1 ≤ j → ¬ rayOver sqrtEx collFieldEx 10 10 (21/2) 10 j →
      ¬ raySolid sqrtEx collFieldEx 10 10 (21/2) 10 j) ∧
    Option.map Prod.fst (collideLine sqrtEx collFieldEx 1 10 10 (21/2) 10) = some true := by
  refine ⟨collideCex_start, ?_, ?_⟩
  · intro j hj hnot
    exact absurd (collideCex_over j hj) hnot
  · obtain ⟨r, hr, hiff⟩ := collideLine_stop_iff sqrtEx collFieldEx 10 10 (21/2) 10 1 1
      collideCex_start (by rw [collideCex_len, abs_of_pos (by norm_num : (0:ℚ) < 1/2)]; norm_num) le_rfl
      (collideCex_over 1 le_rfl) (fun m hm1 hm2 => absurd (by omega : m < 1) (by omega))
      le_rfl
    rw [hr]
    have : r.1 = true := hiff.2 ⟨1, le_rfl, le_rfl, collideCex_solid1⟩
    simp [this]

/-- Witness for the amended C4 on the concrete field: `nstar = 1`, all
hypotheses hold and the hit condition is settled by the solid overshoot
sample. -/
theorem claim_c4_amended_hit_iff_witness :
    ∃ r, collideLine sqrtEx collFieldEx 1 10 10 (21/2) 10 = some r ∧
      (r.1 = true ↔ ∃ j : ℕ, 1 ≤ j ∧ j ≤ 1 ∧ raySolid sqrtEx collFieldEx 10 10 (21/2) 10 j) :=
  claim_c4_amended_hit_iff sqrtEx collFieldEx 10 10 (21/2) 10 1 1
    collideCex_start (by rw [collideCex_len, abs_of_pos (by norm_num : (0:ℚ) < 1/2)]; norm_num) le_rfl
    (collideCex_over 1 le_rfl) (fun m hm1 hm2 => absurd hm1 (by omega))
    le_rfl

/-!
## `Landscape` (T_MAP.cpp): data model and basic queries
-/

/-- `LandscapeType` ordinals (the enum of T_MAP.HPP). -/
def LANDSCAPE_TYPE_HEIGHT : ℕ := 0

def LANDSCAPE_TYPE_ROAD : ℕ := 1

def LANDSCAPE_TYPE_TREE : ℕ := 2

def LANDSCAPE_TYPE_GRASS : ℕ := 3

def LANDSCAPE_TYPE_FLOWER : ℕ := 4

def LANDSCAPE_TYPE_STONE : ℕ := 5

def LANDSCAPE_TYPE_WATER : ℕ := 6

def LANDSCAPE_TYPE_OBJECT : ℕ := 7

/-- One landscape element (`class LandscapeElement`): type tag, three
byte-sized parameters, squared pop-in distance, world position. -/
structure LandscapeElement where
  type : ℕ
  v0 : ℤ
  v1 : ℤ
  v2 : ℤ
  distanceThresholdSquared : ℚ
  x : ℚ
  y : ℚ
  z : ℚ

/-- The `Landscape` aggregate: master element list, world bounds, heightmap
(`u16`, row-major) and boden (soil) map (`u8`) with shared dimensions. -/
structure Landscape where
  scape : List LandscapeElement
  minX : ℚ
  maxX : ℚ
  minY : ℚ
  maxY : ℚ
  minZ : ℚ
  maxZ : ℚ
  map_height_w : ℕ
  map_height_h : ℕ
  map_height : List ℕ
  map_boden : List ℕ

/-- `Landscape::getHeight`: clamped, bilinearly interpolated heightmap
lookup, rescaled to `[minY, maxY]`, with the integer corner offsets
`xa`/`za` and per-corner edge replication of the source. -/
def getHeight (L : Landscape) (x0 z0 : ℚ) (xa za : ℤ) : ℚ :=
  let x1 := if x0 < L.minX then L.minX else x0
  let z1 := if z0 < L.minZ then L.minZ else z0
  let x := if x1 > L.maxX - 1/1000 then L.maxX - 1/1000 else x1
  let z := if z1 > L.maxZ - 1/1000 then L.maxZ - 1/1000 else z1
  let xf := (x - L.minX) * L.map_height_w / (L.maxX - L.minX)
  let zf := (z - L.minZ) * L.map_height_h / (L.maxZ - L.minZ)
  let xi := ⌊xf⌋
  let zi := ⌊zf⌋
  let xi_ := xi + xa
  let zi_ := zi + za
  let xi0 := if xi_ < 0 then 0 else if (L.map_height_w : ℤ) ≤ xi_ then (L.map_height_w : ℤ) - 1 else xi_
  let zi0 := if zi_ < 0 then 0 else if (L.map_height_h : ℤ) ≤ zi_ then (L.map_height_h : ℤ) - 1 else zi_
  let xi1 := if (L.map_height_w : ℤ) ≤ xi0 + 1 then xi0 else xi0 + 1
  let zi1 := if (L.map_height_h : ℤ) ≤ zi0 + 1 then zi0 else zi0 + 1
  let fx := xf - (xi : ℚ)
  let fy := zf - (zi : ℚ)
  let p00 := (L.map_height.getD (xi0.toNat + zi0.toNat * L.map_height_w) 0 : ℚ)
  let p10 := (L.map_height.getD (xi1.toNat + zi0.toNat * L.map_height_w) 0 : ℚ)
  let p11 := (L.map_height.getD (xi1.toNat + zi1.toNat * L.map_height_w) 0 : ℚ)
  let p01 := (L.map_height.getD (xi0.toNat + zi1.toNat * L.map_height_w) 0 : ℚ)
  let top := (p10 - p00) * fx + p00
  let btm := (p11 - p01) * fx + p01
  ((btm - top) * fy + top) * (L.maxY - L.minY) / 65535 + L.minY

/-- `Landscape::putHeight`: write one heightmap cell from a world position
and height, silently dropping writes outside the world bounds or whose cell
fails the source's `(unsigned)xi >= map_height_w-1` guard. -/
def putHeight (L : Landscape) (x z hgt : ℚ) : Landscape :=
  if x < L.minX ∨ L.maxX ≤ x then L
  else if z < L.minZ ∨ L.maxZ ≤ z then L
  else
    let xf := (x - L.minX) * L.map_height_w / (L.maxX - L.minX)
    let zf := (z - L.minZ) * L.map_height_h / (L.maxZ - L.minZ)
    let xi := ⌊xf⌋
    let zi := ⌊zf⌋
    if xi < 0 ∨ (L.map_height_w : ℤ) - 1 ≤ xi then L
    else if zi < 0 ∨ (L.map_height_h : ℤ) - 1 ≤ zi then L
    else
      let k0 := (hgt - L.minY) / (L.maxY - L.minY) * 65535
      let k1 := if k0 < 0 then 0 else k0
      let k := if k1 > 65535 then 65535 else k1
      { L with map_height := L.map_height.set (xi.toNat + zi.toNat * L.map_height_w) (truncQ k).toNat }

/-- `Landscape::hitThresh`: sub-cell position of the threshold crossing in a
`(left, center, right)` cell triple. -/
def hitThresh (center left right thresh : ℚ) : ℚ :=
  if left < thresh then
    let dist0 := left - thresh
    let dist1 := center - thresh
    let k := -dist0 + dist1
    if k = 0 then 0 else -dist0 / k - 1
  else if right < thresh then
    let dist0 := center - thresh
    let dist1 := right - thresh
    let k := -dist0 + dist1
    if k = 0 then 0 else -dist0 / k
  else 0

/-- The element loop of `Landscape::collectLandscape` (the C loop counts
`scape.size()` times while walking a pointer forward over the element array,
pushing the elements that pass the distance test in master order). -/
def collectGo (cx cy cz k : ℚ) : List LandscapeElement → List LandscapeElement
  | [] => []
  | e :: rest =>
    if (e.x - cx) * (e.x - cx) + (e.y - cy) * (e.y - cy) + (e.z - cz) * (e.z - cz) <
        e.distanceThresholdSquared * k then
      e :: collectGo cx cy cz k rest
    else collectGo cx cy cz k rest

/-- `Landscape::collectLandscape`: clear the output array (`prevOut` is
discarded), then push every element within its scaled pop-in distance. -/
def collectLandscape (prevOut : List LandscapeElement) (L : Landscape)
    (cx cy cz detailScale : ℚ) : List LandscapeElement :=
  collectGo cx cy cz detailScale L.scape

theorem collectGo_eq_filter (cx cy cz s : ℚ) (l : List LandscapeElement) :
    collectGo cx cy cz s l = l.filter (fun e =>
      decide ((e.x - cx) * (e.x - cx) + (e.y - cy) * (e.y - cy) + (e.z - cz) * (e.z - cz) <
        e.distanceThresholdSquared * s)) := by
  induction l with
  | nil => rfl
  | cons e t ih =>
    rw [collectGo]
    by_cases h : (e.x - cx) * (e.x - cx) + (e.y - cy) * (e.y - cy) + (e.z - cz) * (e.z - cz) <
        e.distanceThresholdSquared * s
    · simp [List.filter_cons, h, ih]
    · simp [List.filter_cons, h, ih]

/-- Claim C7: for every camera position and detail scale, `collectLandscape`
replaces the output array's previous contents with exactly the elements `e`
of the master list whose squared camera distance is below
`e.distanceThresholdSquared * detailScale`, in master-list order. -/
theorem claim_c7_collect_exact (prevOut : List LandscapeElement) (L : Landscape)
    (cx cy cz s : ℚ) :
    collectLandscape prevOut L cx cy cz s = L.scape.filter (fun e =>
      decide ((e.x - cx) * (e.x - cx) + (e.y - cy) * (e.y - cy) + (e.z - cz) * (e.z - cz) <
        e.distanceThresholdSquared * s)) :=
  collectGo_eq_filter cx cy cz s L.scape

/-!
## Claim C2: `getHeight` on the 2×2 checker heightmap
-/

/-- The Landscape of the C2 scenario: bounds `0..1 × 0..1`, `minY = 0`,
`maxY = 100`, 2×2 heightmap `[0, 65535, 65535, 0]` (row-major). -/
def scape2Ex : Landscape := ⟨[], 0, 1, 0, 100, 0, 1, 2, 2, [0, 65535, 65535, 0], [0, 0, 0, 0]⟩

theorem getHeight_scape2Ex : getHeight scape2Ex (1/2) (1/2) 0 0 = 0 := by
  unfold getHeight scape2Ex
  norm_num [List.getD]

/-- Amended claim C2: on the 2×2 heightmap `[0, 65535, 65535, 0]` with world
bounds `0..1 × 0..1` and `minY = 0`, `maxY = 100`, `getHeight(0.5, 0.5)`
returns exactly `0`: the sample point `(0.5, 0.5)` maps to grid coordinate
`(1,1)`, whose four (clamped) interpolation corners all coincide with the
bottom-right texel `0`. -/
theorem claim_c2_amended : getHeight scape2Ex (1/2) (1/2) 0 0 = 0 :=
  getHeight_scape2Ex

/-- Counterexample to claim C2 as stated: the returned value `0` is not
within `0.01` of `50`. -/
theorem claim_c2_counterexample :
    ¬ |getHeight scape2Ex (1/2) (1/2) 0 0 - 50| ≤ 1/100 := by
  rw [getHeight_scape2Ex]
  rw [show |(0:ℚ) - 50| = 50 by rw [abs_of_nonpos] <;> norm_num]
  norm_num

/-!
## Claim C6: `hitThresh` on a left-side crossing
-/

theorem hitThresh_eval_256_128_512_192 : hitThresh 256 128 512 192 = -(1/2) := by
  unfold hitThresh
  norm_num

/-- Counterexample to claim C6 as stated: at `center = 256`, `left = 128`,
`right = 512`, `thresh = 192` (which satisfy `left < thresh ≤ center`) the
code returns `-0.5`, not the claimed `-(center−thresh)/((thresh−left)+(center−thresh)) − 1 = -1.5`. -/
theorem claim_c6_counterexample :
    hitThresh 256 128 512 192 ≠
      -((256:ℚ) - 192) / ((192 - 128) + (256 - 192)) - 1 := by
  rw [hitThresh_eval_256_128_512_192]
  norm_num

/-- Amended claim C6: for `left < thresh ≤ center` the returned fractional
position equals `-(center − thresh) / ((thresh − left) + (center − thresh))`
(no trailing `− 1`), and that value lies in `[-1, 0]`. -/
theorem claim_c6_amended (center left right thresh : ℚ)
    (h1 : left < thresh) (h2 : thresh ≤ center) :
    hitThresh center left right thresh =
      -(center - thresh) / ((thresh - left) + (center - thresh)) ∧
    -1 ≤ hitThresh center left right thresh ∧
    hitThresh center left right thresh ≤ 0 := by
  have hk : -(left - thresh) + (center - thresh) ≠ 0 := by
    intro h
    nlinarith
  have hkpos : (0:ℚ) < (thresh - left) + (center - thresh) := by nlinarith
  have heq : hitThresh center left right thresh =
      -(center - thresh) / ((thresh - left) + (center - thresh)) := by
    unfold hitThresh
    rw [if_pos h1, if_neg hk, div_sub_one hk]
    rw [show -(left - thresh) - (-(left - thresh) + (center - thresh)) =
      -(center - thresh) from by ring]
    rw [show -(left - thresh) + (center - thresh) =
      (thresh - left) + (center - thresh) from by ring]
  refine ⟨heq, ?_, ?_⟩
  · rw [heq]
    rw [neg_div, neg_le, neg_neg]
    rw [div_le_one hkpos]
    nlinarith
  · rw [heq]
    rw [neg_div]
    exact neg_nonpos.2 (div_nonneg (by linarith) (le_of_lt hkpos))

/-- Witness for the amended C6 at `(256, 128, 512, 192)`. -/
theorem claim_c6_amended_witness :
    hitThresh 256 128 512 192 =
      -((256:ℚ) - 192) / ((192 - 128) + (256 - 192)) ∧
    -1 ≤ hitThresh 256 128 512 192 ∧ hitThresh 256 128 512 192 ≤ 0 :=
  claim_c6_amended 256 128 512 192 (by norm_num) (by norm_num)

/-!
## Claim C10: the frame property of `putHeight`
-/

theorem getD_set_last_untouched (lst : List ℕ) (W H xn zn c r v : ℕ)
    (hxn : xn + 1 < W) (hzn : zn + 1 < H) (hc : c < W) (hr : r < H)
    (hlast : c = W - 1 ∨ r = H - 1) :
    (lst.set (xn + zn * W) v).getD (c + r * W) 0 = lst.getD (c + r * W) 0 := by
  rw [List.getD_eq_getElem?_getD, List.getD_eq_getElem?_getD, List.getElem?_set_ne]
  intro heq
  have hmod : (xn + zn * W) % W = (c + r * W) % W := by rw [heq]
  rw [Nat.add_mul_mod_self_right, Nat.add_mul_mod_self_right] at hmod
  rw [Nat.mod_eq_of_lt (by omega : xn < W), Nat.mod_eq_of_lt hc] at hmod
  have hzr : zn * W = r * W := by
    have h2 : xn + zn * W = xn + r * W := by rw [heq, hmod]
    exact Nat.add_left_cancel h2
  have hzr2 : zn = r := Nat.eq_of_mul_eq_mul_right (by omega) hzr
  rcases hlast with hl | hl <;> omega

/-- Claim C10: `putHeight` leaves the `Landscape` unchanged whenever the
position is outside the world bounds or the target cell hits the
`xi >= W-1` / `zi >= H-1` guard; and no cell of the last heightmap row or
column is ever written, even for positions strictly inside the bounds. -/
theorem claim_c10_putHeight_frame (L : Landscape) (x z hgt : ℚ)
    (hw : 1 ≤ L.map_height_w) (hh : 1 ≤ L.map_height_h) :
    ((x < L.minX ∨ L.maxX ≤ x ∨ z < L.minZ ∨ L.maxZ ≤ z ∨
      (L.map_height_w : ℤ) - 1 ≤ ⌊(x - L.minX) * L.map_height_w / (L.maxX - L.minX)⌋ ∨
      (L.map_height_h : ℤ) - 1 ≤ ⌊(z - L.minZ) * L.map_height_h / (L.maxZ - L.minZ)⌋) →
      putHeight L x z hgt = L) ∧
    (∀ c r : ℕ, c < L.map_height_w → r < L.map_height_h →
      (c = L.map_height_w - 1 ∨ r = L.map_height_h - 1) →
      (putHeight L x z hgt).map_height.getD (c + r * L.map_height_w) 0 =
        L.map_height.getD (c + r * L.map_height_w) 0) := by
  constructor
  · intro h
    simp only [putHeight]
    split_ifs with h1 h2 h3 h4 hk1 hk2 <;>
      first
      | rfl
      | (exfalso
         rcases h with h | h | h | h | h | h
         · exact h1 (Or.inl h)
         · exact h1 (Or.inr h)
         · exact h2 (Or.inl h)
         · exact h2 (Or.inr h)
         · exact h3 (Or.inr h)
         · exact h4 (Or.inr h))
  · intro c r hc hr hlast
    simp only [putHeight]
    split_ifs with h1 h2 h3 h4 hk1 hk2 <;>
      first
      | rfl
      | (push_neg at h3 h4
         exact getD_set_last_untouched L.map_height L.map_height_w L.map_height_h _ _ c r _
           (by omega) (by omega) hc hr hlast)

/-- The concrete Landscape for the C10 witness: bounds `0..2 × 0..2`, `2×2`
heightmap. -/
def scape10Ex : Landscape := ⟨[], 0, 2, 0, 100, 0, 2, 2, 2, [1, 2, 3, 4], [0, 0, 0, 0]⟩

/-- Witness for C10: a write at `x = -5 < minX` leaves the Landscape
untouched. -/
theorem claim_c10_putHeight_frame_witness : putHeight scape10Ex (-5) 1 7 = scape10Ex :=
  (claim_c10_putHeight_frame scape10Ex (-5) 1 7 (by norm_num [scape10Ex])
    (by norm_num [scape10Ex])).1 (Or.inl (by norm_num [scape10Ex]))

/-!
## Element generation (T_MAP.cpp)

The scan order of every generation loop is row-major: `z` outer, `x` inner.
`rnd : ℕ → ℕ` is the libc `rand` stream after `srand(0)`, read at an
explicit position: each op starts at position `0` and every `rand()` call
advances the position by one.
-/

/-- The cells `(x, z)` of a `w × h` scan in source order. -/
def cellList (w h : ℕ) : List (ℕ × ℕ) :=
  (List.range h).flatMap (fun z => (List.range w).map (fun x => (x, z)))

/-- The cells of the strided `setHeightMap` scan
(`for (z = 0; z < h; z += stepZ) for (x = 0; x < w; x += stepX)`). -/
def cellListStep (w h stepX stepZ : ℕ) : List (ℕ × ℕ) :=
  ((List.range h).filter (fun z => z % stepZ = 0)).flatMap
    (fun z => ((List.range w).filter (fun x => x % stepX = 0)).map (fun x => (x, z)))

/-- `int tx = w; while ((x % tx) != 0) tx >>= 1;` — the first value in the
halving chain `w, w/2, w/4, …` that divides `x` (the source has no `tx = 0`
guard; reaching `0` would be UB there, the model returns `0`). -/
def twoDivGo (x : ℕ) (tx : ℕ) : ℕ :=
  if tx = 0 then 0
  else if x % tx = 0 then tx
  else twoDivGo x (tx / 2)
termination_by tx
decreasing_by exact Nat.div_lt_self (by omega) (by omega)

/-- The loop body of `Landscape::setTrees` for one cell `(x, z)`.  The state
is the element list so far and the `rand` stream position; the six draws
`r1..r6` happen before any test, so the position advances by six on every
cell (`r2` is drawn but never used). -/
def setTreesCell (rnd : ℕ → ℕ) (L : Landscape) (mask mapA : List ℕ)
    (w h : ℕ) (randomModulo : ℕ) (st : List LandscapeElement × ℕ) (c : ℕ × ℕ) :
    List LandscapeElement × ℕ :=
  let x := c.1
  let z := c.2
  let ctr := st.2
  let r1 := rnd ctr
  let r3 := rnd (ctr + 2)
  let r4 := rnd (ctr + 3)
  let r5 := rnd (ctr + 4)
  let r6 := rnd (ctr + 5) % 256
  let ctr2 := ctr + 6
  if mask.getD (x + z * w) 0 ≠ 0 then (st.1, ctr2)
  else if mapA.getD (x + z * w) 0 ≠ 0 ∧ r1 % randomModulo = 0 then
    let ex := (L.maxX - L.minX) * x / w + L.minX
    let ez := (L.maxZ - L.minZ) * z / h + L.minZ
    let bigTree : ℕ := if 0 < r6 / 220 then 1 else 0
    let ey := getHeight L ex ez 0 0 - 1/4 - 3/4 * (bigTree : ℚ)
    let siz : ℚ := 200 + ((r5 % 256 : ℕ) : ℚ) / 255 * 200
    (st.1 ++ [{ type := LANDSCAPE_TYPE_TREE, v0 := ((r3 % 256 : ℕ) : ℤ), v1 := ((r4 % 256 : ℕ) : ℤ),
                v2 := (((r6 % 2) + bigTree * 128 : ℕ) : ℤ), distanceThresholdSquared := siz * siz,
                x := ex, y := ey, z := ez }], ctr2)
  else (st.1, ctr2)

/-- `Landscape::setTrees`: reseed to 0, scan all cells. -/
def setTrees (rnd : ℕ → ℕ) (L : Landscape) (mask mapA : List ℕ)
    (w h : ℕ) (randomModulo : ℕ) : Landscape :=
  { L with scape :=
      ((cellList w h).foldl (setTreesCell rnd L mask mapA w h randomModulo) (L.scape, 0)).1 }

/-- The loop body of `Landscape::setGrass` for one cell: seven draws
`r1..r7` on every cell, then mask test, layer test, slope test and
`r1 % randomModulo` selection. -/
def setGrassCell (sq sinQ cosQ : ℚ → ℚ) (rnd : ℕ → ℕ) (L : Landscape)
    (mask mapA : List ℕ) (w h : ℕ) (randomModulo : ℕ)
    (st : List LandscapeElement × ℕ) (c : ℕ × ℕ) : List LandscapeElement × ℕ :=
  let x := c.1
  let z := c.2
  let ctr := st.2
  let r1 := rnd ctr
  let r3 := rnd (ctr + 2)
  let r4 := rnd (ctr + 3)
  let r5 := rnd (ctr + 4)
  let r6 := rnd (ctr + 5)
  let r7 := rnd (ctr + 6)
  let ctr2 := ctr + 7
  if mask.getD (x + z * w) 0 ≠ 0 then (st.1, ctr2)
  else if mapA.getD (x + z * w) 0 ≠ 0 then
    let px0 := (L.maxX - L.minX) * x / w + L.minX
    let py0 := (L.maxZ - L.minZ) * z / h + L.minZ
    let k := 3 * (L.maxX - L.minX) / w
    let dxg := getHeight L (px0 + k) py0 0 0 - getHeight L (px0 - k) py0 0 0
    let dyg := getHeight L px0 (py0 + k) 0 0 - getHeight L px0 (py0 - k) 0 0
    let dg := sq (dxg * dxg + dyg * dyg)
    if r1 % randomModulo = 0 ∧ dg < 1/2 then
      let ox : ℚ := ((r6 % 256 : ℕ) : ℚ) / 255
      let oz : ℚ := ((r7 % 256 : ℕ) : ℚ) / 255
      let ex := (L.maxX - L.minX) * ((x : ℚ) + ox) / w + L.minX
      let ez := (L.maxZ - L.minZ) * ((z : ℚ) + oz) / h + L.minZ
      let ey := getHeight L ex ez 0 0
      let px := ex * (1/4)
      let pz := ez * (1/4)
      let f := sinQ (px + pz + sinQ (px * (2/5) - pz * (1/5)) + cosQ (px * (7/10)) -
        sinQ (pz * (9/10))) * (1/2) + 1/2
      let siz : ℚ := 200 * (((r5 % 256 : ℕ) : ℚ) / 255 * (3/4) + 1/4)
      (st.1 ++ [{ type := LANDSCAPE_TYPE_GRASS, v0 := truncQ (f * 8 + 18 + 4),
                  v1 := ((r3 % 256 : ℕ) : ℤ), v2 := ((r4 % 256 : ℕ) : ℤ),
                  distanceThresholdSquared := siz * siz, x := ex, y := ey, z := ez }], ctr2)
    else (st.1, ctr2)
  else (st.1, ctr2)

/-- `Landscape::setGrass`. -/
def setGrass (sq sinQ cosQ : ℚ → ℚ) (rnd : ℕ → ℕ) (L : Landscape)
    (mask mapA : List ℕ) (w h : ℕ) (randomModulo : ℕ) : Landscape :=
  { L with scape :=
      ((cellList w h).foldl (setGrassCell sq sinQ cosQ rnd L mask mapA w h randomModulo)
        (L.scape, 0)).1 }

/-- The loop body of `Landscape::setFlowers` for one cell: seven draws
`r1..r7` on every cell. -/
def setFlowersCell (sinQ cosQ : ℚ → ℚ) (rnd : ℕ → ℕ) (L : Landscape)
    (mask mapA : List ℕ) (w h : ℕ) (randomModulo : ℕ)
    (st : List LandscapeElement × ℕ) (c : ℕ × ℕ) : List LandscapeElement × ℕ :=
  let x := c.1
  let z := c.2
  let ctr := st.2
  let r1 := rnd ctr
  let r3 := rnd (ctr + 2)
  let r4 := rnd (ctr + 3)
  let r5 := rnd (ctr + 4)
  let r7 := rnd (ctr + 6)
  let ctr2 := ctr + 7
  if mask.getD (x + z * w) 0 ≠ 0 then (st.1, ctr2)
  else if mapA.getD (x + z * w) 0 ≠ 0 ∧ r1 % randomModulo = 0 then
    let ex := (L.maxX - L.minX) * x / w + L.minX
    let ez := (L.maxZ - L.minZ) * z / h + L.minZ
    let ey := getHeight L ex ez 0 0 + 1/2
    let px := ex * (1/2)
    let pz := ez * (1/2)
    let f0 := sinQ (px + pz + sinQ (px * (2/5) - pz * (1/5)) + cosQ (px * (7/10)) -
      sinQ (pz * (9/10))) * (1/2) + 1/2
    let f := if r3 % 8 = 0 then ((r4 % 8 : ℕ) : ℚ) / 7 else f0
    let v2v : ℤ := ((r7 % 256 : ℕ) : ℤ)
    let siz : ℚ := 75 * (((r5 % 256 : ℕ) : ℚ) / 255 * (3/4) + 1/4) * ((v2v : ℚ) / 255 * (1/2) + 1/2)
    (st.1 ++ [{ type := LANDSCAPE_TYPE_FLOWER, v0 := truncQ (f * 4) % 4,
                v1 := ((r5 % 256 : ℕ) : ℤ), v2 := v2v,
                distanceThresholdSquared := siz * siz, x := ex, y := ey, z := ez }], ctr2)
  else (st.1, ctr2)

/-- `Landscape::setFlowers`. -/
def setFlowers (sinQ cosQ : ℚ → ℚ) (rnd : ℕ → ℕ) (L : Landscape)
    (mask mapA : List ℕ) (w h : ℕ) (randomModulo : ℕ) : Landscape :=
  { L with scape :=
      ((cellList w h).foldl (setFlowersCell sinQ cosQ rnd L mask mapA w h randomModulo)
        (L.scape, 0)).1 }

/-- Amended claim C3: for every cell visited during the scan — regardless
of the mask test, the layer-present test, or whether an element is placed —
`setTrees` draws exactly 6 samples from the deterministic stream (reseeded
to 0 at the start of the call), while `setGrass` and `setFlowers` draw
exactly 7. -/
theorem claim_c3_amended (sq sinQ cosQ : ℚ → ℚ) (rnd : ℕ → ℕ) (L : Landscape)
    (mask mapA : List ℕ) (w h randomModulo : ℕ)
    (st : List LandscapeElement × ℕ) (c : ℕ × ℕ) :
    (setTreesCell rnd L mask mapA w h randomModulo st c).2 = st.2 + 6 ∧
    (setGrassCell sq sinQ cosQ rnd L mask mapA w h randomModulo st c).2 = st.2 + 7 ∧
    (setFlowersCell sinQ cosQ rnd L mask mapA w h randomModulo st c).2 = st.2 + 7 := by
  refine ⟨?_, ?_, ?_⟩
  · simp only [setTreesCell]
    split_ifs <;> rfl
  · simp only [setGrassCell]
    split_ifs <;> rfl
  · simp only [setFlowersCell]
    split_ifs <;> rfl

/-- Counterexample to claim C3 as stated: on a concrete 1×1 scan cell,
`setTrees` advances the random stream by 6, not 7. -/
theorem claim_c3_counterexample :
    ¬ (setTreesCell (fun n => n) scape10Ex [] [] 1 1 1 ([], 0) (0, 0)).2 = 0 + 7 := by
  unfold setTreesCell
  norm_num [List.getD]

/-- The per-cell body of `Landscape::setHeightMap`: the elements (none or
one) written for cell `(x, z)`.  The `resize`/`scape[k++]` pattern of the
source appends the written records in scan order.  `sq` stands for the C
`sqrt`.  The source leaves `v2` unset (the element is freshly
default-constructed); the model uses `0`. -/
def setHeightMapCell (sq : ℚ → ℚ) (mask mapA boden : List ℕ) (w h : ℕ)
    (stepX stepZ : ℕ) (distFact steepThresh : ℚ) (L : Landscape) (c : ℕ × ℕ) :
    List LandscapeElement :=
  let x := c.1
  let z := c.2
  let border := x = 0 ∨ w - stepX ≤ x ∨ z = 0 ∨ h - stepZ ≤ z
  if mask.getD (x + z * w) 0 ≠ 0 ∧ ¬border then []
  else
    let v__ := (mapA.getD (x + z * w) 0 : ℚ)
    let vn_ := (mapA.getD ((x - 1) + z * w) 0 : ℚ)
    let vp_ := (mapA.getD ((if w ≤ x + 1 then w - 1 else x + 1) + z * w) 0 : ℚ)
    let v_n := (mapA.getD (x + (z - 1) * w) 0 : ℚ)
    let v_p := (mapA.getD (x + (if h ≤ z + 1 then h - 1 else z + 1) * w) 0 : ℚ)
    let vx := (vn_ + vp_) * (1/2) - v__
    let vy := (v_n + v_p) * (1/2) - v__
    let v := sq (vx * vx + vy * vy)
    if v < steepThresh ∧ ¬border then []
    else
      let dx0 := vp_ - vn_
      let dy0 := v_p - v_n
      let dd := sq (dx0 * dx0 + dy0 * dy0)
      let dx := if dd ≠ 0 then dx0 / dd else dx0
      let tx := twoDivGo x w
      let tz := twoDivGo z h
      let siz0 : ℚ := if tz < tx then (tz : ℚ) / h else (tx : ℚ) / w
      let siz1 := siz0 * 750 * distFact
      let siz := if border ∧ (x + z) % 8 = 0 then (L.maxX - L.minX) + (L.maxZ - L.minZ) else siz1
      [{ type := LANDSCAPE_TYPE_HEIGHT, v0 := truncQ (128 + dx * 127),
         v1 := (boden.getD (x + z * w) 0 : ℤ), v2 := 0,
         distanceThresholdSquared := siz * siz,
         x := (L.maxX - L.minX) * x / w + L.minX,
         y := (L.maxY - L.minY) * v__ / 65535 + L.minY,
         z := (L.maxZ - L.minZ) * z / h + L.minZ }]

/-- `Landscape::setHeightMap`: install the new heightmap/boden buffers and
dimensions, then append one Height element per surviving stepped cell. -/
def setHeightMap (sq : ℚ → ℚ) (L : Landscape) (mask mapA : List ℕ) (w h : ℕ)
    (stepX stepZ : ℕ) (distFact steepThresh : ℚ) (boden : List ℕ) : Landscape :=
  let L1 := { L with map_boden := boden, map_height := mapA,
                     map_height_w := w, map_height_h := h }
  let es := (cellListStep w h stepX stepZ).flatMap
    (setHeightMapCell sq mask mapA boden w h stepX stepZ distFact steepThresh L1)
  { L1 with scape := L1.scape ++ es }

/-- The per-cell body of `Landscape::setObjects` (the `p3` alpha nibble is
decoded but unused by the source). -/
def setObjectsCell (L : Landscape) (rgba : List ℕ) (w h : ℕ) (c : ℕ × ℕ) :
    List LandscapeElement :=
  let x := c.1
  let z := c.2
  let p := rgba.getD (x + z * w) 0
  let p0 := (p % 256) / 4
  if p0 ≠ 0 then
    let p1 := ((p / 256) % 256) / 4
    let p2 := ((p / 65536) % 256) / 4
    let px := (L.maxX - L.minX) * x / w + L.minX
    let pz := (L.maxZ - L.minZ) * z / h + L.minZ
    let py := getHeight L px pz 0 0
    let siz0 := ((L.maxX - L.minX) + (L.maxZ - L.minZ)) * (1/20)
    let siz := if p0 - 1 = 3 ∨ p0 - 1 = 4 then siz0 * 3 else siz0
    [{ type := LANDSCAPE_TYPE_OBJECT, v0 := (p0 : ℤ), v1 := (p1 : ℤ), v2 := (p2 : ℤ),
       distanceThresholdSquared := siz * siz, x := px, y := py, z := pz }]
  else []

/-- `Landscape::setObjects`. -/
def setObjects (L : Landscape) (rgba : List ℕ) (w h : ℕ) : Landscape :=
  let es := (cellList w h).flatMap (setObjectsCell L rgba w h)
  { L with scape := L.scape ++ es }

/-- `Landscape::insertEmpty`: append one blank Height element at element
coordinates `(x2, z2)` of a `w × h` grid; `distFact` is stored verbatim as
`distanceThresholdSquared`.  The source leaves `v2` unset; the model uses
`0`.  `sq` stands for the C `sqrt` of the gradient normalisation. -/
def insertEmpty (sq : ℚ → ℚ) (L : Landscape) (x2 z2 : ℚ) (w h : ℕ) (distFact : ℚ) :
    Landscape :=
  let ex := (L.maxX - L.minX) * x2 / w + L.minX
  let ez := (L.maxZ - L.minZ) * z2 / h + L.minZ
  let ey := getHeight L ex ez 0 0
  let x3 := ⌊x2⌋
  let z3 := ⌊z2⌋
  let x4 := if x3 < 0 then 0 else x3
  let z4 := if z3 < 0 then 0 else z3
  let x5 := if (w : ℤ) ≤ x4 then (w : ℤ) - 1 else x4
  let z5 := if (h : ℤ) ≤ z4 then (h : ℤ) - 1 else z4
  let xn := x5.toNat
  let zn := z5.toNat
  let vn_ := (L.map_height.getD ((xn - 1) + zn * w) 0 : ℚ)
  let vp_ := (L.map_height.getD ((if w ≤ xn + 1 then w - 1 else xn + 1) + zn * w) 0 : ℚ)
  let v_n := (L.map_height.getD (xn + (zn - 1) * w) 0 : ℚ)
  let v_p := (L.map_height.getD (xn + (if h ≤ zn + 1 then h - 1 else zn + 1) * w) 0 : ℚ)
  let dx0 := vp_ - vn_
  let dy0 := v_p - v_n
  let dd := sq (dx0 * dx0 + dy0 * dy0)
  let dx := if dd ≠ 0 then dx0 / dd else dx0
  let e : LandscapeElement :=
    { type := LANDSCAPE_TYPE_HEIGHT, v0 := truncQ (128 + dx * 127),
      v1 := (L.map_boden.getD (xn + zn * w) 0 : ℤ), v2 := 0,
      distanceThresholdSquared := distFact, x := ex, y := ey, z := ez }
  { L with scape := L.scape ++ [e] }

/-- The clamped right/down neighbour index used by the contour scans of
`setStones`, `setWater` and `setRoads`: `x + 1`, clamped to the last column
(row): `x + 1 >= w ? w - 1 : x + 1`. -/
def clampIdx (w x : ℕ) : ℕ := if w ≤ x + 1 then w - 1 else x + 1

/-- First pass of `Landscape::setStones`: raise the heightmap inside the
stone region by a smooth-noise offset; one `rand` draw per heightmap cell. -/
def setStonesHeightCell (sinQ cosQ : ℚ → ℚ) (rnd : ℕ → ℕ) (mapA : List ℕ)
    (w h : ℕ) (threshOuter : ℤ) (st : Landscape × ℕ) (c : ℕ × ℕ) : Landscape × ℕ :=
  let x := c.1
  let z := c.2
  let L := st.1
  let r2 := rnd st.2 % 256
  let ctr2 := st.2 + 1
  let rx := x * w / L.map_height_w
  let rz := z * h / L.map_height_h
  let v__ := mapA.getD (rx + rz * w) 0
  if threshOuter ≤ (v__ : ℤ) then
    let ex := (L.maxX - L.minX) * x / w + L.minX
    let ez := (L.maxZ - L.minZ) * z / h + L.minZ
    let px := ex * (1/10)
    let pz := ez * (1/10)
    let f := (sinQ (px + pz + sinQ px + cosQ pz) * (1/2) + 1/2 + 1/5) * 3 *
      (1 + (r2 : ℚ) / 255 * (1/4))
    (putHeight L ex ez (getHeight L ex ez 0 0 + f), ctr2)
  else (L, ctr2)

/-- Second pass of `Landscape::setStones` for one cell: one `rand` draw,
then the outer-contour Stone element and the cleanup-contour pad element
(the source leaves the Stone's `v1`/`v2` unset; the model uses `0`). -/
def setStonesCell (sq : ℚ → ℚ) (rnd : ℕ → ℕ) (mapA : List ℕ) (w h : ℕ)
    (threshOuter threshCleanup : ℤ) (st : Landscape × ℕ) (c : ℕ × ℕ) : Landscape × ℕ :=
  let x := c.1
  let z := c.2
  let r1 := rnd st.2 % 256
  let ctr2 := st.2 + 1
  let v__ := mapA.getD (x + z * w) 0
  let vn_ := mapA.getD ((x - 1) + z * w) 0
  let vp_ := mapA.getD (clampIdx w x + z * w) 0
  let v_n := mapA.getD (x + (z - 1) * w) 0
  let v_p := mapA.getD (x + clampIdx h z * w) 0
  let gradX : ℚ := ((vp_ : ℚ) - (vn_ : ℚ)) / 255
  let gradZ : ℚ := ((v_p : ℚ) - (v_n : ℚ)) / 255
  let grad0 := sq (gradX * gradX + gradZ * gradZ)
  let grad := grad0 * grad0 * 9
  let siz : ℚ := 250 * (grad * 2 + 1/100)
  let d := siz * siz
  let L1 :=
    if threshOuter ≤ (v__ : ℤ) ∧ ((vn_ : ℤ) < threshOuter ∨ (vp_ : ℤ) < threshOuter ∨
        (v_n : ℤ) < threshOuter ∨ (v_p : ℤ) < threshOuter) then
      let xd := hitThresh (v__ : ℚ) (vn_ : ℚ) (vp_ : ℚ) (threshOuter : ℚ)
      let zd := hitThresh (v__ : ℚ) (v_n : ℚ) (v_p : ℚ) (threshOuter : ℚ)
      let ex := (st.1.maxX - st.1.minX) * ((x : ℚ) + xd) / w + st.1.minX
      let ez := (st.1.maxZ - st.1.minZ) * ((z : ℚ) + zd) / h + st.1.minZ
      { st.1 with scape := st.1.scape ++
          [⟨LANDSCAPE_TYPE_STONE, (r1 : ℤ), 0, 0, d, ex, getHeight st.1 ex ez 0 0, ez⟩] }
    else st.1
  let L2 :=
    if threshCleanup ≤ (v__ : ℤ) ∧ ((vn_ : ℤ) < threshCleanup ∨ (vp_ : ℤ) < threshCleanup ∨
        (v_n : ℤ) < threshCleanup ∨ (v_p : ℤ) < threshCleanup) then
      insertEmpty sq L1 ((x : ℚ) + hitThresh (v__ : ℚ) (vn_ : ℚ) (vp_ : ℚ) (threshCleanup : ℚ))
        ((z : ℚ) + hitThresh (v__ : ℚ) (v_n : ℚ) (v_p : ℚ) (threshCleanup : ℚ)) w h d
    else L1
  (L2, ctr2)

/-- `Landscape::setStones`: the heightmap-raising pass (reseeded to 0),
then the contour pass (reseeded to 0 again). -/
def setStones (sq sinQ cosQ : ℚ → ℚ) (rnd : ℕ → ℕ) (L : Landscape) (mapA : List ℕ)
    (w h : ℕ) (threshOuter threshCleanup : ℤ) : Landscape :=
  let L1 := ((cellList L.map_height_w L.map_height_h).foldl
    (setStonesHeightCell sinQ cosQ rnd mapA w h threshOuter) (L, 0)).1
  ((cellList w h).foldl (setStonesCell sq rnd mapA w h threshOuter threshCleanup) (L1, 0)).1

/-- `Landscape::setWater` for one cell: the outer-contour Water element
(the commented-out `fillPoint` of the source is constant `false`) and the
cleanup pad.  No `rand` draws.  The Water element's `v0..v2` are unset in
the source; the model uses `0`. -/
def setWaterCell (sq : ℚ → ℚ) (mapA : List ℕ) (w h : ℕ)
    (threshOuter threshCleanup : ℤ) (L : Landscape) (c : ℕ × ℕ) : Landscape :=
  let x := c.1
  let z := c.2
  let v__ := mapA.getD (x + z * w) 0
  let vn_ := mapA.getD ((x - 1) + z * w) 0
  let vp_ := mapA.getD (clampIdx w x + z * w) 0
  let v_n := mapA.getD (x + (z - 1) * w) 0
  let v_p := mapA.getD (x + clampIdx h z * w) 0
  let gradX : ℚ := ((vp_ : ℚ) - (vn_ : ℚ)) / 255
  let gradZ : ℚ := ((v_p : ℚ) - (v_n : ℚ)) / 255
  let grad0 := sq (gradX * gradX + gradZ * gradZ)
  let grad1 := grad0 * grad0 * 9
  let grad2 := grad1 * grad1 * 9
  let grad3 := grad2 * grad2 * 9
  let siz : ℚ := 400 * (grad3 * 3 + 1/100)
  let d := siz * siz
  let L1 :=
    if threshOuter ≤ (v__ : ℤ) ∧ ((vn_ : ℤ) < threshOuter ∨ (vp_ : ℤ) < threshOuter ∨
        (v_n : ℤ) < threshOuter ∨ (v_p : ℤ) < threshOuter) then
      let xd := hitThresh (v__ : ℚ) (vn_ : ℚ) (vp_ : ℚ) (threshOuter : ℚ)
      let zd := hitThresh (v__ : ℚ) (v_n : ℚ) (v_p : ℚ) (threshOuter : ℚ)
      let ex := (L.maxX - L.minX) * ((x : ℚ) + xd) / w + L.minX
      let ez := (L.maxZ - L.minZ) * ((z : ℚ) + zd) / h + L.minZ
      { L with scape := L.scape ++
          [⟨LANDSCAPE_TYPE_WATER, 0, 0, 0, d, ex, getHeight L ex ez 0 0, ez⟩] }
    else L
  if threshCleanup ≤ (v__ : ℤ) ∧ ((vn_ : ℤ) < threshCleanup ∨ (vp_ : ℤ) < threshCleanup ∨
      (v_n : ℤ) < threshCleanup ∨ (v_p : ℤ) < threshCleanup) then
    insertEmpty sq L1 ((x : ℚ) + hitThresh (v__ : ℚ) (vn_ : ℚ) (vp_ : ℚ) (threshCleanup : ℚ))
      ((z : ℚ) + hitThresh (v__ : ℚ) (v_n : ℚ) (v_p : ℚ) (threshCleanup : ℚ)) w h d
  else L1

/-- `Landscape::setWater`. -/
def setWater (sq : ℚ → ℚ) (L : Landscape) (mapA : List ℕ) (w h : ℕ)
    (threshOuter threshCleanup : ℤ) : Landscape :=
  (cellList w h).foldl (setWaterCell sq mapA w h threshOuter threshCleanup) L

/-- First pass of `Landscape::setRoads`: carve the heightmap down inside the
road region.  No `rand` draws. -/
def setRoadsHeightCell (sinQ cosQ : ℚ → ℚ) (mapA : List ℕ) (w h : ℕ)
    (threshWayOuter : ℤ) (L : Landscape) (c : ℕ × ℕ) : Landscape :=
  let x := c.1
  let z := c.2
  let px := (L.maxX - L.minX) * x / w + L.minX
  let pz := (L.maxZ - L.minZ) * z / h + L.minZ
  let rx := x * w / L.map_height_w
  let rz := z * h / L.map_height_h
  let v__ := mapA.getD (rx + rz * w) 0
  if threshWayOuter ≤ (v__ : ℤ) then
    let f := (sinQ (px + pz + sinQ (px * (2/5) - pz * (1/5)) + cosQ (px * (7/10)) -
      sinQ (pz * (9/10))) * (1/2) + 1/2) * (1/2) + 1/2
    putHeight L px pz (getHeight L px pz 0 0 - f * (1/4))
  else L

/-- Outer-contour stage of the second pass of `Landscape::setRoads` for one
cell: the outer Road element, optionally followed by a decorative Grass
element whose extra `rand` draws happen only inside the taken branch.
Unset byte fields of the source are `0` in the model. -/
def setRoadsOuter (sq : ℚ → ℚ) (rnd : ℕ → ℕ) (mapA : List ℕ) (w h : ℕ)
    (threshWayOuter : ℤ) (st : Landscape × ℕ) (c : ℕ × ℕ) : Landscape × ℕ :=
  let x := c.1
  let z := c.2
  let v__ := mapA.getD (x + z * w) 0
  let vn_ := mapA.getD ((x - 1) + z * w) 0
  let vp_ := mapA.getD (clampIdx w x + z * w) 0
  let v_n := mapA.getD (x + (z - 1) * w) 0
  let v_p := mapA.getD (x + clampIdx h z * w) 0
  let gradX : ℚ := ((vp_ : ℚ) - (vn_ : ℚ)) / 255
  let gradZ : ℚ := ((v_p : ℚ) - (v_n : ℚ)) / 255
  let grad0 := sq (gradX * gradX + gradZ * gradZ)
  let grad := grad0 * grad0 * 9
  let siz : ℚ := 500 * (grad * 3 + 1/100)
  let d := siz * siz
  if threshWayOuter ≤ (v__ : ℤ) ∧ ((vn_ : ℤ) < threshWayOuter ∨ (vp_ : ℤ) < threshWayOuter ∨
      (v_n : ℤ) < threshWayOuter ∨ (v_p : ℤ) < threshWayOuter) then
    let xd := hitThresh (v__ : ℚ) (vn_ : ℚ) (vp_ : ℚ) (threshWayOuter : ℚ)
    let zd := hitThresh (v__ : ℚ) (v_n : ℚ) (v_p : ℚ) (threshWayOuter : ℚ)
    let ex := (st.1.maxX - st.1.minX) * ((x : ℚ) + xd) / w + st.1.minX
    let ez := (st.1.maxZ - st.1.minZ) * ((z : ℚ) + zd) / h + st.1.minZ
    let L1 := { st.1 with scape := st.1.scape ++
        [⟨LANDSCAPE_TYPE_ROAD, 0, 0, 0, d, ex, getHeight st.1 ex ez 0 0, ez⟩] }
    if rnd st.2 % 8 = 0 then
      let v0g : ℤ := ((rnd (st.2 + 1) % 4 : ℕ) : ℤ) + 16
      let sizg : ℚ := 200 * (((rnd (st.2 + 2) % 256 : ℕ) : ℚ) / 255 * (3/4) + 1/4)
      ({ L1 with scape := L1.scape ++
          [⟨LANDSCAPE_TYPE_GRASS, v0g, 200, 0, sizg * sizg, ex, getHeight L1 ex ez 0 0, ez⟩] },
        st.2 + 3)
    else (L1, st.2 + 1)
  else st

/-- Inner-contour stage of the second pass of `Landscape::setRoads` for one
cell: the inner Road element (with its sine-noise `v0` byte), optionally
followed by a decorative Grass element. -/
def setRoadsInner (sq sinQ cosQ : ℚ → ℚ) (rnd : ℕ → ℕ) (mapA : List ℕ) (w h : ℕ)
    (threshWayInner : ℤ) (st : Landscape × ℕ) (c : ℕ × ℕ) : Landscape × ℕ :=
  let x := c.1
  let z := c.2
  let v__ := mapA.getD (x + z * w) 0
  let vn_ := mapA.getD ((x - 1) + z * w) 0
  let vp_ := mapA.getD (clampIdx w x + z * w) 0
  let v_n := mapA.getD (x + (z - 1) * w) 0
  let v_p := mapA.getD (x + clampIdx h z * w) 0
  let gradX : ℚ := ((vp_ : ℚ) - (vn_ : ℚ)) / 255
  let gradZ : ℚ := ((v_p : ℚ) - (v_n : ℚ)) / 255
  let grad0 := sq (gradX * gradX + gradZ * gradZ)
  let grad := grad0 * grad0 * 9
  let siz : ℚ := 500 * (grad * 3 + 1/100)
  let d := siz * siz
  if threshWayInner ≤ (v__ : ℤ) ∧ ((vn_ : ℤ) < threshWayInner ∨ (vp_ : ℤ) < threshWayInner ∨
      (v_n : ℤ) < threshWayInner ∨ (v_p : ℤ) < threshWayInner) then
    let xd := hitThresh (v__ : ℚ) (vn_ : ℚ) (vp_ : ℚ) (threshWayInner : ℚ)
    let zd := hitThresh (v__ : ℚ) (v_n : ℚ) (v_p : ℚ) (threshWayInner : ℚ)
    let ex := (st.1.maxX - st.1.minX) * ((x : ℚ) + xd) / w + st.1.minX
    let ez := (st.1.maxZ - st.1.minZ) * ((z : ℚ) + zd) / h + st.1.minZ
    let f := (sinQ (ex + ez + sinQ (ex * (2/5) - ez * (1/5)) + cosQ (ex * (7/10)) -
      sinQ (ez * (9/10))) * (1/2) + 1/2) * (1/2) + 1/2
    let L1 := { st.1 with scape := st.1.scape ++
        [⟨LANDSCAPE_TYPE_ROAD, truncQ (f * 255), 0, 0, d, ex, getHeight st.1 ex ez 0 0, ez⟩] }
    if rnd st.2 % 16 = 0 then
      let v0g : ℤ := ((rnd (st.2 + 1) % 4 : ℕ) : ℤ) + 16
      let sizg : ℚ := 200 * (((rnd (st.2 + 2) % 256 : ℕ) : ℚ) / 255 * (3/4) + 1/4)
      ({ L1 with scape := L1.scape ++
          [⟨LANDSCAPE_TYPE_GRASS, v0g, 100, 0, sizg * sizg, ex, getHeight L1 ex ez 0 0, ez⟩] },
        st.2 + 3)
    else (L1, st.2 + 1)
  else st

/-- Cleanup stage of the second pass of `Landscape::setRoads` for one cell:
the cleanup-contour pad element.  No `rand` draws. -/
def setRoadsCleanup (sq : ℚ → ℚ) (mapA : List ℕ) (w h : ℕ)
    (threshCleanup : ℤ) (L : Landscape) (c : ℕ × ℕ) : Landscape :=
  let x := c.1
  let z := c.2
  let v__ := mapA.getD (x + z * w) 0
  let vn_ := mapA.getD ((x - 1) + z * w) 0
  let vp_ := mapA.getD (clampIdx w x + z * w) 0
  let v_n := mapA.getD (x + (z - 1) * w) 0
  let v_p := mapA.getD (x + clampIdx h z * w) 0
  let gradX : ℚ := ((vp_ : ℚ) - (vn_ : ℚ)) / 255
  let gradZ : ℚ := ((v_p : ℚ) - (v_n : ℚ)) / 255
  let grad0 := sq (gradX * gradX + gradZ * gradZ)
  let grad := grad0 * grad0 * 9
  let siz : ℚ := 500 * (grad * 3 + 1/100)
  let d := siz * siz
  if threshCleanup ≤ (v__ : ℤ) ∧ ((vn_ : ℤ) < threshCleanup ∨ (vp_ : ℤ) < threshCleanup ∨
      (v_n : ℤ) < threshCleanup ∨ (v_p : ℤ) < threshCleanup) then
    insertEmpty sq L ((x : ℚ) + hitThresh (v__ : ℚ) (vn_ : ℚ) (vp_ : ℚ) (threshCleanup : ℚ))
      ((z : ℚ) + hitThresh (v__ : ℚ) (v_n : ℚ) (v_p : ℚ) (threshCleanup : ℚ)) w h d
  else L

/-- Second pass of `Landscape::setRoads` for one cell: the outer- and
inner-contour Road elements, each optionally followed by a decorative Grass
element whose `rand` draws happen only inside the taken branches, and the
cleanup pad. -/
def setRoadsCell (sq sinQ cosQ : ℚ → ℚ) (rnd : ℕ → ℕ) (mapA : List ℕ) (w h : ℕ)
    (threshWayOuter threshWayInner threshCleanup : ℤ)
    (st : Landscape × ℕ) (c : ℕ × ℕ) : Landscape × ℕ :=
  let st1 := setRoadsOuter sq rnd mapA w h threshWayOuter st c
  let st2 := setRoadsInner sq sinQ cosQ rnd mapA w h threshWayInner st1 c
  (setRoadsCleanup sq mapA w h threshCleanup st2.1 c, st2.2)

/-- `Landscape::setRoads`: the carving pass (after `srand(0)`), then the
contour pass. -/
def setRoads (sq sinQ cosQ : ℚ → ℚ) (rnd : ℕ → ℕ) (L : Landscape) (mapA : List ℕ)
    (w h : ℕ) (threshWayOuter threshWayInner threshCleanup : ℤ) : Landscape :=
  let L1 := (cellList L.map_height_w L.map_height_h).foldl
    (setRoadsHeightCell sinQ cosQ mapA w h threshWayOuter) L
  ((cellList w h).foldl
    (setRoadsCell sq sinQ cosQ rnd mapA w h threshWayOuter threshWayInner threshCleanup)
    (L1, 0)).1

/-!
## Claim C8: the element-list invariant
-/

/-- The invariant claimed for every generated element: position inside the
world's X/Z bounds and a nonnegative squared pop-in distance. -/
def ElemOKB (x0 x1 z0 z1 : ℚ) (e : LandscapeElement) : Prop :=
  x0 ≤ e.x ∧ e.x ≤ x1 ∧ z0 ≤ e.z ∧ e.z ≤ z1 ∧ 0 ≤ e.distanceThresholdSquared

theorem foldl_preserve {σ α : Type} (P : σ → Prop) (f : σ → α → σ) :
    ∀ (l : List α), (∀ s a, a ∈ l → P s → P (f s a)) → ∀ s, P s → P (l.foldl f s)
  | [], _, _, hs => hs
  | a :: t, hf, s, hs => by
    rw [List.foldl_cons]
    exact foldl_preserve P f t (fun s' b hb => hf s' b (List.mem_cons_of_mem a hb)) _
      (hf s a (List.mem_cons_self a t) hs)

theorem mem_cellList (w h : ℕ) (c : ℕ × ℕ) (hc : c ∈ cellList w h) :
    c.1 < w ∧ c.2 < h := by
  unfold cellList at hc
  rw [List.mem_flatMap] at hc
  obtain ⟨z, hz, hc⟩ := hc
  rw [List.mem_map] at hc
  obtain ⟨x, hx, rfl⟩ := hc
  exact ⟨List.mem_range.1 hx, List.mem_range.1 hz⟩

theorem mem_cellListStep (w h sx sz : ℕ) (c : ℕ × ℕ) (hc : c ∈ cellListStep w h sx sz) :
    c.1 < w ∧ c.2 < h := by
  unfold cellListStep at hc
  rw [List.mem_flatMap] at hc
  obtain ⟨z, hz, hc⟩ := hc
  rw [List.mem_map] at hc
  obtain ⟨x, hx, rfl⟩ := hc
  rw [List.mem_filter, List.mem_range] at hx hz
  exact ⟨hx.1, hz.1⟩

/-- The affine cell-to-world map lands inside the bounds for any cell
offset `t ∈ [0, w]` (also for `w = 0`, where the division yields `0`). -/
theorem coord_in_bounds (lo hi : ℚ) (hlh : lo ≤ hi) (t : ℚ) (w : ℕ)
    (ht0 : 0 ≤ t) (htw : t ≤ (w : ℚ)) :
    lo ≤ (hi - lo) * t / w + lo ∧ (hi - lo) * t / w + lo ≤ hi := by
  rcases Nat.eq_zero_or_pos w with hw | hw
  · subst hw
    simp only [Nat.cast_zero, div_zero, zero_add]
    exact ⟨le_refl lo, hlh⟩
  · have hw' : (0 : ℚ) < w := by exact_mod_cast hw
    constructor
    · have h0 : 0 ≤ (hi - lo) * t / w :=
        div_nonneg (mul_nonneg (by linarith) ht0) (le_of_lt hw')
      linarith
    · have h1 : (hi - lo) * t ≤ (hi - lo) * w :=
        mul_le_mul_of_nonneg_left htw (by linarith)
      have h2 : (hi - lo) * t / w ≤ hi - lo := by
        rw [div_le_iff₀ hw']
        calc (hi - lo) * t ≤ (hi - lo) * w := h1
          _ = (hi - lo) * w := rfl
      linarith

theorem hitThresh_mem_Icc (c l r t : ℚ) (hc : t ≤ c) :
    -1 ≤ hitThresh c l r t ∧ hitThresh c l r t ≤ 1 := by
  simp only [hitThresh]
  split_ifs with h1 hk h2 hk2
  · norm_num
  · have hkpos : (0 : ℚ) < -(l - t) + (c - t) := by
      rcases lt_trichotomy (-(l - t) + (c - t)) 0 with h | h | h
      · linarith
      · exact absurd h hk
      · exact h
    have h0 : 0 ≤ -(l - t) / (-(l - t) + (c - t)) :=
      div_nonneg (by linarith) (le_of_lt hkpos)
    have h3 : -(l - t) / (-(l - t) + (c - t)) ≤ 1 := by
      rw [div_le_one hkpos]
      linarith
    constructor <;> linarith
  · norm_num
  · have hkneg : -(c - t) + (r - t) < 0 := by
      rcases lt_trichotomy (-(c - t) + (r - t)) 0 with h | h | h
      · exact h
      · exact absurd h hk2
      · linarith
    have hden : (0 : ℚ) < (c - t) - (r - t) := by linarith
    have hval : -(c - t) / (-(c - t) + (r - t)) = (c - t) / ((c - t) - (r - t)) := by
      rw [div_eq_div_iff hk2 (ne_of_gt hden)]
      ring
    rw [hval]
    have h0 : 0 ≤ (c - t) / ((c - t) - (r - t)) :=
      div_nonneg (by linarith) (le_of_lt hden)
    have h3 : (c - t) / ((c - t) - (r - t)) ≤ 1 := by
      rw [div_le_one hden]
      linarith
    constructor <;> linarith
  · norm_num

theorem hitThresh_nonneg_left (c l r t : ℚ) (hc : t ≤ c) (hl : t ≤ l) :
    0 ≤ hitThresh c l r t := by
  simp only [hitThresh]
  split_ifs with h1 hk h2 hk2
  · norm_num
  · linarith
  · norm_num
  · have hkneg : -(c - t) + (r - t) < 0 := by
      rcases lt_trichotomy (-(c - t) + (r - t)) 0 with h | h | h
      · exact h
      · exact absurd h hk2
      · linarith
    exact div_nonneg_iff.2 (Or.inr ⟨by linarith, le_of_lt hkneg⟩)
  · norm_num

theorem hitThresh_nonpos_right (c l r t : ℚ) (hc : t ≤ c) (hr : t ≤ r) :
    hitThresh c l r t ≤ 0 := by
  simp only [hitThresh]
  split_ifs with h1 hk h2 hk2
  · norm_num
  · have hkpos : (0 : ℚ) < -(l - t) + (c - t) := by
      rcases lt_trichotomy (-(l - t) + (c - t)) 0 with h | h | h
      · linarith
      · exact absurd h hk
      · exact h
    have h3 : -(l - t) / (-(l - t) + (c - t)) ≤ 1 := by
      rw [div_le_one hkpos]
      linarith
    linarith
  · norm_num
  · linarith
  · norm_num

/-- The sub-cell contour offset keeps the element coordinate inside
`[0, w]`: at the left/right border the clamped neighbour equals the centre
(which is at or above the threshold), pinning the offset's sign. -/
theorem contour_offset_range (x w : ℕ) (hx : x < w) (c l r t : ℚ) (hc : t ≤ c)
    (hl : x = 0 → l = c) (hr : w ≤ x + 1 → r = c) :
    0 ≤ (x : ℚ) + hitThresh c l r t ∧ (x : ℚ) + hitThresh c l r t ≤ (w : ℚ) := by
  obtain ⟨hm1, hm2⟩ := hitThresh_mem_Icc c l r t hc
  constructor
  · rcases Nat.eq_zero_or_pos x with h0 | h0
    · have hval : 0 ≤ hitThresh c l r t :=
        hitThresh_nonneg_left c l r t hc (by rw [hl h0]; exact hc)
      subst h0
      simpa using hval
    · have h1 : (1 : ℚ) ≤ (x : ℚ) := by exact_mod_cast h0
      linarith
  · rcases Nat.lt_or_ge (x + 1) w with hlt | hge
    · have h1 : (x : ℚ) + 1 ≤ (w : ℚ) := by exact_mod_cast Nat.le_of_lt hlt
      linarith
    · have hval : hitThresh c l r t ≤ 0 :=
        hitThresh_nonpos_right c l r t hc (by rw [hr hge]; exact hc)
      have h1 : (x : ℚ) < (w : ℚ) := by exact_mod_cast hx
      linarith

theorem putHeight_frame_fields (L : Landscape) (x z hgt : ℚ) :
    (putHeight L x z hgt).scape = L.scape ∧ (putHeight L x z hgt).minX = L.minX ∧
    (putHeight L x z hgt).maxX = L.maxX ∧ (putHeight L x z hgt).minZ = L.minZ ∧
    (putHeight L x z hgt).maxZ = L.maxZ := by
  simp only [putHeight]
  split_ifs <;> exact ⟨rfl, rfl, rfl, rfl, rfl⟩

theorem insertEmpty_ok (sq : ℚ → ℚ) (L : Landscape) (x2 z2 : ℚ) (w h : ℕ) (df : ℚ)
    (hb : L.minX ≤ L.maxX) (hz : L.minZ ≤ L.maxZ)
    (hx2a : 0 ≤ x2) (hx2b : x2 ≤ (w : ℚ)) (hz2a : 0 ≤ z2) (hz2b : z2 ≤ (h : ℚ))
    (hdf : 0 ≤ df) :
    (insertEmpty sq L x2 z2 w h df).minX = L.minX ∧
    (insertEmpty sq L x2 z2 w h df).maxX = L.maxX ∧
    (insertEmpty sq L x2 z2 w h df).minZ = L.minZ ∧
    (insertEmpty sq L x2 z2 w h df).maxZ = L.maxZ ∧
    ∀ e ∈ (insertEmpty sq L x2 z2 w h df).scape,
      e ∈ L.scape ∨ ElemOKB L.minX L.maxX L.minZ L.maxZ e := by
  refine ⟨rfl, rfl, rfl, rfl, ?_⟩
  intro e he
  simp only [insertEmpty, List.mem_append, List.mem_singleton] at he
  rcases he with he | he
  · exact Or.inl he
  · right
    subst he
    exact ⟨(coord_in_bounds L.minX L.maxX hb x2 w hx2a hx2b).1,
      (coord_in_bounds L.minX L.maxX hb x2 w hx2a hx2b).2,
      (coord_in_bounds L.minZ L.maxZ hz z2 h hz2a hz2b).1,
      (coord_in_bounds L.minZ L.maxZ hz z2 h hz2a hz2b).2, hdf⟩

theorem setTreesCell_ok (rnd : ℕ → ℕ) (L : Landscape) (mask mapA : List ℕ)
    (w h rm : ℕ) (hb : L.minX ≤ L.maxX) (hz : L.minZ ≤ L.maxZ)
    (st : List LandscapeElement × ℕ) (c : ℕ × ℕ) (hc : c ∈ cellList w h)
    (hst : ∀ e ∈ st.1, ElemOKB L.minX L.maxX L.minZ L.maxZ e) :
    ∀ e ∈ (setTreesCell rnd L mask mapA w h rm st c).1,
      ElemOKB L.minX L.maxX L.minZ L.maxZ e := by
  obtain ⟨hx, hzc⟩ := mem_cellList w h c hc
  intro e he
  have hxw : ((c.1 : ℚ)) ≤ (w : ℚ) := by exact_mod_cast Nat.le_of_lt hx
  have hzh : ((c.2 : ℚ)) ≤ (h : ℚ) := by exact_mod_cast Nat.le_of_lt hzc
  simp only [setTreesCell] at he
  split_ifs at he <;>
    first
    | exact hst e he
    | (rw [List.mem_append, List.mem_singleton] at he
       rcases he with he | he
       · exact hst e he
       · subst he
         exact ⟨(coord_in_bounds L.minX L.maxX hb (c.1 : ℚ) w (by positivity) hxw).1,
           (coord_in_bounds L.minX L.maxX hb (c.1 : ℚ) w (by positivity) hxw).2,
           (coord_in_bounds L.minZ L.maxZ hz (c.2 : ℚ) h (by positivity) hzh).1,
           (coord_in_bounds L.minZ L.maxZ hz (c.2 : ℚ) h (by positivity) hzh).2,
           mul_self_nonneg _⟩)

theorem setTrees_ok (rnd : ℕ → ℕ) (L : Landscape) (mask mapA : List ℕ) (w h rm : ℕ)
    (hb : L.minX ≤ L.maxX) (hz : L.minZ ≤ L.maxZ)
    (hL : ∀ e ∈ L.scape, ElemOKB L.minX L.maxX L.minZ L.maxZ e) :
    (setTrees rnd L mask mapA w h rm).minX = L.minX ∧
    (setTrees rnd L mask mapA w h rm).maxX = L.maxX ∧
    (setTrees rnd L mask mapA w h rm).minZ = L.minZ ∧
    (setTrees rnd L mask mapA w h rm).maxZ = L.maxZ ∧
    ∀ e ∈ (setTrees rnd L mask mapA w h rm).scape,
      ElemOKB L.minX L.maxX L.minZ L.maxZ e := by
  refine ⟨rfl, rfl, rfl, rfl, ?_⟩
  show ∀ e ∈ ((cellList w h).foldl (setTreesCell rnd L mask mapA w h rm) (L.scape, 0)).1,
    ElemOKB L.minX L.maxX L.minZ L.maxZ e
  exact foldl_preserve (fun st => ∀ e ∈ st.1, ElemOKB L.minX L.maxX L.minZ L.maxZ e)
    (setTreesCell rnd L mask mapA w h rm) (cellList w h)
    (fun s a ha hs => setTreesCell_ok rnd L mask mapA w h rm hb hz s a ha hs)
    (L.scape, 0) hL

theorem setGrassCell_ok (sq sinQ cosQ : ℚ → ℚ) (rnd : ℕ → ℕ) (L : Landscape)
    (mask mapA : List ℕ) (w h rm : ℕ) (hb : L.minX ≤ L.maxX) (hz : L.minZ ≤ L.maxZ)
    (st : List LandscapeElement × ℕ) (c : ℕ × ℕ) (hc : c ∈ cellList w h)
    (hst : ∀ e ∈ st.1, ElemOKB L.minX L.maxX L.minZ L.maxZ e) :
    ∀ e ∈ (setGrassCell sq sinQ cosQ rnd L mask mapA w h rm st c).1,
      ElemOKB L.minX L.maxX L.minZ L.maxZ e := by
  obtain ⟨hx, hzc⟩ := mem_cellList w h c hc
  intro e he
  have hox : ((rnd (st.2 + 5) % 256 : ℕ) : ℚ) / 255 ≤ 1 := by
    rw [div_le_one (by norm_num)]
    exact_mod_cast Nat.le_of_lt_succ (Nat.mod_lt _ (by norm_num))
  have hoz : ((rnd (st.2 + 6) % 256 : ℕ) : ℚ) / 255 ≤ 1 := by
    rw [div_le_one (by norm_num)]
    exact_mod_cast Nat.le_of_lt_succ (Nat.mod_lt _ (by norm_num))
  have hxw : ((c.1 : ℚ)) + ((rnd (st.2 + 5) % 256 : ℕ) : ℚ) / 255 ≤ (w : ℚ) := by
    have h1 : ((c.1 : ℚ)) + 1 ≤ (w : ℚ) := by exact_mod_cast hx
    linarith
  have hzh : ((c.2 : ℚ)) + ((rnd (st.2 + 6) % 256 : ℕ) : ℚ) / 255 ≤ (h : ℚ) := by
    have h1 : ((c.2 : ℚ)) + 1 ≤ (h : ℚ) := by exact_mod_cast hzc
    linarith
  simp only [setGrassCell] at he
  split_ifs at he <;>
    first
    | exact hst e he
    | (rw [List.mem_append, List.mem_singleton] at he
       rcases he with he | he
       · exact hst e he
       · subst he
         exact ⟨(coord_in_bounds L.minX L.maxX hb _ w (by positivity) hxw).1,
           (coord_in_bounds L.minX L.maxX hb _ w (by positivity) hxw).2,
           (coord_in_bounds L.minZ L.maxZ hz _ h (by positivity) hzh).1,
           (coord_in_bounds L.minZ L.maxZ hz _ h (by positivity) hzh).2,
           mul_self_nonneg _⟩)

theorem setGrass_ok (sq sinQ cosQ : ℚ → ℚ) (rnd : ℕ → ℕ) (L : Landscape)
    (mask mapA : List ℕ) (w h rm : ℕ)
    (hb : L.minX ≤ L.maxX) (hz : L.minZ ≤ L.maxZ)
    (hL : ∀ e ∈ L.scape, ElemOKB L.minX L.maxX L.minZ L.maxZ e) :
    (setGrass sq sinQ cosQ rnd L mask mapA w h rm).minX = L.minX ∧
    (setGrass sq sinQ cosQ rnd L mask mapA w h rm).maxX = L.maxX ∧
    (setGrass sq sinQ cosQ rnd L mask mapA w h rm).minZ = L.minZ ∧
    (setGrass sq sinQ cosQ rnd L mask mapA w h rm).maxZ = L.maxZ ∧
    ∀ e ∈ (setGrass sq sinQ cosQ rnd L mask mapA w h rm).scape,
      ElemOKB L.minX L.maxX L.minZ L.maxZ e := by
  refine ⟨rfl, rfl, rfl, rfl, ?_⟩
  show ∀ e ∈ ((cellList w h).foldl (setGrassCell sq sinQ cosQ rnd L mask mapA w h rm)
    (L.scape, 0)).1, ElemOKB L.minX L.maxX L.minZ L.maxZ e
  exact foldl_preserve (fun st => ∀ e ∈ st.1, ElemOKB L.minX L.maxX L.minZ L.maxZ e)
    (setGrassCell sq sinQ cosQ rnd L mask mapA w h rm) (cellList w h)
    (fun s a ha hs => setGrassCell_ok sq sinQ cosQ rnd L mask mapA w h rm hb hz s a ha hs)
    (L.scape, 0) hL

theorem setFlowersCell_ok (sinQ cosQ : ℚ → ℚ) (rnd : ℕ → ℕ) (L : Landscape)
    (mask mapA : List ℕ) (w h rm : ℕ) (hb : L.minX ≤ L.maxX) (hz : L.minZ ≤ L.maxZ)
    (st : List LandscapeElement × ℕ) (c : ℕ × ℕ) (hc : c ∈ cellList w h)
    (hst : ∀ e ∈ st.1, ElemOKB L.minX L.maxX L.minZ L.maxZ e) :
    ∀ e ∈ (setFlowersCell sinQ cosQ rnd L mask mapA w h rm st c).1,
      ElemOKB L.minX L.maxX L.minZ L.maxZ e := by
  obtain ⟨hx, hzc⟩ := mem_cellList w h c hc
  intro e he
  have hxw : ((c.1 : ℚ)) ≤ (w : ℚ) := by exact_mod_cast Nat.le_of_lt hx
  have hzh : ((c.2 : ℚ)) ≤ (h : ℚ) := by exact_mod_cast Nat.le_of_lt hzc
  simp only [setFlowersCell] at he
  split_ifs at he <;>
    first
    | exact hst e he
    | (rw [List.mem_append, List.mem_singleton] at he
       rcases he with he | he
       · exact hst e he
       · subst he
         exact ⟨(coord_in_bounds L.minX L.maxX hb (c.1 : ℚ) w (by positivity) hxw).1,
           (coord_in_bounds L.minX L.maxX hb (c.1 : ℚ) w (by positivity) hxw).2,
           (coord_in_bounds L.minZ L.maxZ hz (c.2 : ℚ) h (by positivity) hzh).1,
           (coord_in_bounds L.minZ L.maxZ hz (c.2 : ℚ) h (by positivity) hzh).2,
           mul_self_nonneg _⟩)

theorem setFlowers_ok (sinQ cosQ : ℚ → ℚ) (rnd : ℕ → ℕ) (L : Landscape)
    (mask mapA : List ℕ) (w h rm : ℕ)
    (hb : L.minX ≤ L.maxX) (hz : L.minZ ≤ L.maxZ)
    (hL : ∀ e ∈ L.scape, ElemOKB L.minX L.maxX L.minZ L.maxZ e) :
    (setFlowers sinQ cosQ rnd L mask mapA w h rm).minX = L.minX ∧
    (setFlowers sinQ cosQ rnd L mask mapA w h rm).maxX = L.maxX ∧
    (setFlowers sinQ cosQ rnd L mask mapA w h rm).minZ = L.minZ ∧
    (setFlowers sinQ cosQ rnd L mask mapA w h rm).maxZ = L.maxZ ∧
    ∀ e ∈ (setFlowers sinQ cosQ rnd L mask mapA w h rm).scape,
      ElemOKB L.minX L.maxX L.minZ L.maxZ e := by
  refine ⟨rfl, rfl, rfl, rfl, ?_⟩
  show ∀ e ∈ ((cellList w h).foldl (setFlowersCell sinQ cosQ rnd L mask mapA w h rm)
    (L.scape, 0)).1, ElemOKB L.minX L.maxX L.minZ L.maxZ e
  exact foldl_preserve (fun st => ∀ e ∈ st.1, ElemOKB L.minX L.maxX L.minZ L.maxZ e)
    (setFlowersCell sinQ cosQ rnd L mask mapA w h rm) (cellList w h)
    (fun s a ha hs => setFlowersCell_ok sinQ cosQ rnd L mask mapA w h rm hb hz s a ha hs)
    (L.scape, 0) hL

theorem setHeightMapCell_ok (sq : ℚ → ℚ) (mask mapA boden : List ℕ) (w h : ℕ)
    (sx sz : ℕ) (df sth : ℚ) (L : Landscape) (c : ℕ × ℕ)
    (hb : L.minX ≤ L.maxX) (hz : L.minZ ≤ L.maxZ) (hx : c.1 < w) (hzc : c.2 < h) :
    ∀ e ∈ setHeightMapCell sq mask mapA boden w h sx sz df sth L c,
      ElemOKB L.minX L.maxX L.minZ L.maxZ e := by
  intro e he
  have hxw : ((c.1 : ℚ)) ≤ (w : ℚ) := by exact_mod_cast Nat.le_of_lt hx
  have hzh : ((c.2 : ℚ)) ≤ (h : ℚ) := by exact_mod_cast Nat.le_of_lt hzc
  simp only [setHeightMapCell] at he
  split_ifs at he <;>
    first
    | exact absurd he (List.not_mem_nil e)
    | (rw [List.mem_singleton] at he
       subst he
       exact ⟨(coord_in_bounds L.minX L.maxX hb (c.1 : ℚ) w (by positivity) hxw).1,
         (coord_in_bounds L.minX L.maxX hb (c.1 : ℚ) w (by positivity) hxw).2,
         (coord_in_bounds L.minZ L.maxZ hz (c.2 : ℚ) h (by positivity) hzh).1,
         (coord_in_bounds L.minZ L.maxZ hz (c.2 : ℚ) h (by positivity) hzh).2,
         mul_self_nonneg _⟩)

theorem setHeightMap_ok (sq : ℚ → ℚ) (L : Landscape) (mask mapA : List ℕ) (w h : ℕ)
    (sx sz : ℕ) (df sth : ℚ) (boden : List ℕ)
    (hb : L.minX ≤ L.maxX) (hz : L.minZ ≤ L.maxZ)
    (hL : ∀ e ∈ L.scape, ElemOKB L.minX L.maxX L.minZ L.maxZ e) :
    (setHeightMap sq L mask mapA w h sx sz df sth boden).minX = L.minX ∧
    (setHeightMap sq L mask mapA w h sx sz df sth boden).maxX = L.maxX ∧
    (setHeightMap sq L mask mapA w h sx sz df sth boden).minZ = L.minZ ∧
    (setHeightMap sq L mask mapA w h sx sz df sth boden).maxZ = L.maxZ ∧
    ∀ e ∈ (setHeightMap sq L mask mapA w h sx sz df sth boden).scape,
      ElemOKB L.minX L.maxX L.minZ L.maxZ e := by
  refine ⟨rfl, rfl, rfl, rfl, ?_⟩
  intro e he
  simp only [setHeightMap, List.mem_append] at he
  rcases he with he | he
  · exact hL e he
  · rw [List.mem_flatMap] at he
    obtain ⟨c, hc, he⟩ := he
    obtain ⟨hx, hzc⟩ := mem_cellListStep w h sx sz c hc
    exact setHeightMapCell_ok sq mask mapA boden w h sx sz df sth _ c hb hz hx hzc e he

theorem setObjectsCell_ok (L : Landscape) (rgba : List ℕ) (w h : ℕ) (c : ℕ × ℕ)
    (hb : L.minX ≤ L.maxX) (hz : L.minZ ≤ L.maxZ) (hx : c.1 < w) (hzc : c.2 < h) :
    ∀ e ∈ setObjectsCell L rgba w h c, ElemOKB L.minX L.maxX L.minZ L.maxZ e := by
  intro e he
  have hxw : ((c.1 : ℚ)) ≤ (w : ℚ) := by exact_mod_cast Nat.le_of_lt hx
  have hzh : ((c.2 : ℚ)) ≤ (h : ℚ) := by exact_mod_cast Nat.le_of_lt hzc
  simp only [setObjectsCell] at he
  split_ifs at he <;>
    first
    | exact absurd he (List.not_mem_nil e)
    | (rw [List.mem_singleton] at he
       subst he
       exact ⟨(coord_in_bounds L.minX L.maxX hb (c.1 : ℚ) w (by positivity) hxw).1,
         (coord_in_bounds L.minX L.maxX hb (c.1 : ℚ) w (by positivity) hxw).2,
         (coord_in_bounds L.minZ L.maxZ hz (c.2 : ℚ) h (by positivity) hzh).1,
         (coord_in_bounds L.minZ L.maxZ hz (c.2 : ℚ) h (by positivity) hzh).2,
         mul_self_nonneg _⟩)

theorem setObjects_ok (L : Landscape) (rgba : List ℕ) (w h : ℕ)
    (hb : L.minX ≤ L.maxX) (hz : L.minZ ≤ L.maxZ)
    (hL : ∀ e ∈ L.scape, ElemOKB L.minX L.maxX L.minZ L.maxZ e) :
    (setObjects L rgba w h).minX = L.minX ∧ (setObjects L rgba w h).maxX = L.maxX ∧
    (setObjects L rgba w h).minZ = L.minZ ∧ (setObjects L rgba w h).maxZ = L.maxZ ∧
    ∀ e ∈ (setObjects L rgba w h).scape, ElemOKB L.minX L.maxX L.minZ L.maxZ e := by
  refine ⟨rfl, rfl, rfl, rfl, ?_⟩
  intro e he
  simp only [setObjects, List.mem_append] at he
  rcases he with he | he
  · exact hL e he
  · rw [List.mem_flatMap] at he
    obtain ⟨c, hc, he⟩ := he
    obtain ⟨hx, hzc⟩ := mem_cellList w h c hc
    exact setObjectsCell_ok L rgba w h c hb hz hx hzc e he

/-- The running invariant of the heightmap-mutating generation passes:
bounds unchanged and every element within them. -/
def LandOK (x0 x1 z0 z1 : ℚ) (M : Landscape) : Prop :=
  M.minX = x0 ∧ M.maxX = x1 ∧ M.minZ = z0 ∧ M.maxZ = z1 ∧
  ∀ e ∈ M.scape, ElemOKB x0 x1 z0 z1 e

theorem LandOK_append (x0 x1 z0 z1 : ℚ) (M : Landscape) (e : LandscapeElement)
    (hM : LandOK x0 x1 z0 z1 M) (he : ElemOKB x0 x1 z0 z1 e) :
    LandOK x0 x1 z0 z1 { M with scape := M.scape ++ [e] } := by
  obtain ⟨m1, m2, m3, m4, m5⟩ := hM
  refine ⟨m1, m2, m3, m4, ?_⟩
  intro f hf
  rw [List.mem_append, List.mem_singleton] at hf
  rcases hf with hf | hf
  · exact m5 f hf
  · exact hf ▸ he

theorem LandOK_putHeight (x0 x1 z0 z1 : ℚ) (M : Landscape) (x z hgt : ℚ)
    (hM : LandOK x0 x1 z0 z1 M) : LandOK x0 x1 z0 z1 (putHeight M x z hgt) := by
  obtain ⟨hs, h1, h2, h3, h4⟩ := putHeight_frame_fields M x z hgt
  obtain ⟨m1, m2, m3, m4, m5⟩ := hM
  exact ⟨h1.trans m1, h2.trans m2, h3.trans m3, h4.trans m4, fun e he => m5 e (hs ▸ he)⟩

theorem LandOK_insertEmpty (sq : ℚ → ℚ) (x0 x1 z0 z1 : ℚ) (M : Landscape)
    (x2 z2 : ℚ) (w h : ℕ) (df : ℚ) (hb : x0 ≤ x1) (hz : z0 ≤ z1)
    (hM : LandOK x0 x1 z0 z1 M)
    (hx2a : 0 ≤ x2) (hx2b : x2 ≤ (w : ℚ)) (hz2a : 0 ≤ z2) (hz2b : z2 ≤ (h : ℚ))
    (hdf : 0 ≤ df) : LandOK x0 x1 z0 z1 (insertEmpty sq M x2 z2 w h df) := by
  obtain ⟨m1, m2, m3, m4, m5⟩ := hM
  obtain ⟨i1, i2, i3, i4, i5⟩ := insertEmpty_ok sq M x2 z2 w h df
    (by rw [m1, m2]; exact hb) (by rw [m3, m4]; exact hz) hx2a hx2b hz2a hz2b hdf
  refine ⟨i1.trans m1, i2.trans m2, i3.trans m3, i4.trans m4, ?_⟩
  intro e he
  rcases i5 e he with he2 | he2
  · exact m5 e he2
  · rw [m1, m2, m3, m4] at he2
    exact he2

theorem contour_x_range (mapA : List ℕ) (w x z : ℕ) (hx : x < w) (T : ℤ)
    (hg : T ≤ (mapA.getD (x + z * w) 0 : ℤ)) :
    0 ≤ (x : ℚ) + hitThresh (mapA.getD (x + z * w) 0 : ℚ)
        (mapA.getD ((x - 1) + z * w) 0 : ℚ)
        (mapA.getD (clampIdx w x + z * w) 0 : ℚ) (T : ℚ) ∧
      (x : ℚ) + hitThresh (mapA.getD (x + z * w) 0 : ℚ)
        (mapA.getD ((x - 1) + z * w) 0 : ℚ)
        (mapA.getD (clampIdx w x + z * w) 0 : ℚ) (T : ℚ) ≤ (w : ℚ) := by
  apply contour_offset_range x w hx
  · exact_mod_cast hg
  · intro h0
    subst h0
    norm_num
  · intro hge
    unfold clampIdx
    rw [if_pos hge]
    have hxe : x = w - 1 := by omega
    rw [hxe]

theorem contour_z_range (mapA : List ℕ) (w h x z : ℕ) (hzc : z < h) (T : ℤ)
    (hg : T ≤ (mapA.getD (x + z * w) 0 : ℤ)) :
    0 ≤ (z : ℚ) + hitThresh (mapA.getD (x + z * w) 0 : ℚ)
        (mapA.getD (x + (z - 1) * w) 0 : ℚ)
        (mapA.getD (x + clampIdx h z * w) 0 : ℚ) (T : ℚ) ∧
      (z : ℚ) + hitThresh (mapA.getD (x + z * w) 0 : ℚ)
        (mapA.getD (x + (z - 1) * w) 0 : ℚ)
        (mapA.getD (x + clampIdx h z * w) 0 : ℚ) (T : ℚ) ≤ (h : ℚ) := by
  apply contour_offset_range z h hzc
  · exact_mod_cast hg
  · intro h0
    subst h0
    norm_num
  · intro hge
    unfold clampIdx
    rw [if_pos hge]
    have hze : z = h - 1 := by omega
    rw [hze]

theorem LandOK_fields (x0 x1 z0 z1 : ℚ) (sc : List LandscapeElement) (y0 y1 : ℚ)
    (mw mh : ℕ) (mhgt mbod : List ℕ)
    (hsc : ∀ e ∈ sc, ElemOKB x0 x1 z0 z1 e) :
    LandOK x0 x1 z0 z1 ⟨sc, x0, x1, y0, y1, z0, z1, mw, mh, mhgt, mbod⟩ :=
  ⟨rfl, rfl, rfl, rfl, hsc⟩

theorem contour_elem_ok (x0 x1 z0 z1 : ℚ) (hb : x0 ≤ x1) (hz : z0 ≤ z1)
    (mapA : List ℕ) (w h x z : ℕ) (hx : x < w) (hzc : z < h) (T : ℤ)
    (hg : T ≤ (mapA.getD (x + z * w) 0 : ℤ))
    (ty : ℕ) (v0 v1 v2 : ℤ) (thr y : ℚ) (hthr : 0 ≤ thr) :
    ElemOKB x0 x1 z0 z1 ⟨ty, v0, v1, v2, thr,
      (x1 - x0) * ((x : ℚ) + hitThresh (mapA.getD (x + z * w) 0 : ℚ)
        (mapA.getD ((x - 1) + z * w) 0 : ℚ)
        (mapA.getD (clampIdx w x + z * w) 0 : ℚ) (T : ℚ)) / w + x0,
      y,
      (z1 - z0) * ((z : ℚ) + hitThresh (mapA.getD (x + z * w) 0 : ℚ)
        (mapA.getD (x + (z - 1) * w) 0 : ℚ)
        (mapA.getD (x + clampIdx h z * w) 0 : ℚ) (T : ℚ)) / h + z0⟩ := by
  obtain ⟨ha, hb2⟩ := contour_x_range mapA w x z hx T hg
  obtain ⟨hc2, hd⟩ := contour_z_range mapA w h x z hzc T hg
  exact ⟨(coord_in_bounds x0 x1 hb _ w ha hb2).1, (coord_in_bounds x0 x1 hb _ w ha hb2).2,
    (coord_in_bounds z0 z1 hz _ h hc2 hd).1, (coord_in_bounds z0 z1 hz _ h hc2 hd).2, hthr⟩

theorem setWaterCell_ok (sq : ℚ → ℚ) (mapA : List ℕ) (w h : ℕ) (tO tC : ℤ)
    (x0 x1 z0 z1 : ℚ) (hb : x0 ≤ x1) (hz : z0 ≤ z1)
    (M : Landscape) (c : ℕ × ℕ) (hc : c ∈ cellList w h)
    (hst : LandOK x0 x1 z0 z1 M) :
    LandOK x0 x1 z0 z1 (setWaterCell sq mapA w h tO tC M c) := by
  obtain ⟨hx, hzc⟩ := mem_cellList w h c hc
  obtain ⟨m1, m2, m3, m4, m5⟩ := hst
  simp only [setWaterCell]
  rw [m1, m2, m3, m4]
  split
  next hcc =>
    split
    next hco =>
      refine LandOK_insertEmpty sq x0 x1 z0 z1 _ _ _ w h _ hb hz ?_
        (contour_x_range mapA w c.1 c.2 hx tC hcc.1).1
        (contour_x_range mapA w c.1 c.2 hx tC hcc.1).2
        (contour_z_range mapA w h c.1 c.2 hzc tC hcc.1).1
        (contour_z_range mapA w h c.1 c.2 hzc tC hcc.1).2
        (mul_self_nonneg _)
      apply LandOK_fields
      intro e he
      rw [List.mem_append, List.mem_singleton] at he
      rcases he with he | rfl
      · exact m5 e he
      · exact contour_elem_ok x0 x1 z0 z1 hb hz mapA w h c.1 c.2 hx hzc tO hco.1
          _ _ _ _ _ _ (mul_self_nonneg _)
    next hco =>
      exact LandOK_insertEmpty sq x0 x1 z0 z1 _ _ _ w h _ hb hz ⟨m1, m2, m3, m4, m5⟩
        (contour_x_range mapA w c.1 c.2 hx tC hcc.1).1
        (contour_x_range mapA w c.1 c.2 hx tC hcc.1).2
        (contour_z_range mapA w h c.1 c.2 hzc tC hcc.1).1
        (contour_z_range mapA w h c.1 c.2 hzc tC hcc.1).2
        (mul_self_nonneg _)
  next hcc =>
    split
    next hco =>
      apply LandOK_fields
      intro e he
      rw [List.mem_append, List.mem_singleton] at he
      rcases he with he | rfl
      · exact m5 e he
      · exact contour_elem_ok x0 x1 z0 z1 hb hz mapA w h c.1 c.2 hx hzc tO hco.1
          _ _ _ _ _ _ (mul_self_nonneg _)
    next hco =>
      exact ⟨m1, m2, m3, m4, m5⟩

theorem setWater_ok (sq : ℚ → ℚ) (L : Landscape) (mapA : List ℕ) (w h : ℕ) (tO tC : ℤ)
    (x0 x1 z0 z1 : ℚ) (hb : x0 ≤ x1) (hz : z0 ≤ z1) (hst : LandOK x0 x1 z0 z1 L) :
    LandOK x0 x1 z0 z1 (setWater sq L mapA w h tO tC) := by
  unfold setWater
  exact foldl_preserve (LandOK x0 x1 z0 z1) _ _ (fun s a ha hP =>
    setWaterCell_ok sq mapA w h tO tC x0 x1 z0 z1 hb hz s a ha hP) L hst

theorem setStonesHeightCell_ok (sinQ cosQ : ℚ → ℚ) (rnd : ℕ → ℕ) (mapA : List ℕ)
    (w h : ℕ) (tO : ℤ) (x0 x1 z0 z1 : ℚ) (st : Landscape × ℕ) (c : ℕ × ℕ)
    (hst : LandOK x0 x1 z0 z1 st.1) :
    LandOK x0 x1 z0 z1 (setStonesHeightCell sinQ cosQ rnd mapA w h tO st c).1 := by
  simp only [setStonesHeightCell]
  split_ifs with h1
  · exact LandOK_putHeight x0 x1 z0 z1 st.1 _ _ _ hst
  · exact hst

theorem setStonesCell_ok (sq : ℚ → ℚ) (rnd : ℕ → ℕ) (mapA : List ℕ) (w h : ℕ) (tO tC : ℤ)
    (x0 x1 z0 z1 : ℚ) (hb : x0 ≤ x1) (hz : z0 ≤ z1)
    (st : Landscape × ℕ) (c : ℕ × ℕ) (hc : c ∈ cellList w h)
    (hst : LandOK x0 x1 z0 z1 st.1) :
    LandOK x0 x1 z0 z1 (setStonesCell sq rnd mapA w h tO tC st c).1 := by
  obtain ⟨hx, hzc⟩ := mem_cellList w h c hc
  obtain ⟨m1, m2, m3, m4, m5⟩ := hst
  simp only [setStonesCell]
  rw [m1, m2, m3, m4]
  split
  next hcc =>
    split
    next hco =>
      refine LandOK_insertEmpty sq x0 x1 z0 z1 _ _ _ w h _ hb hz ?_
        (contour_x_range mapA w c.1 c.2 hx tC hcc.1).1
        (contour_x_range mapA w c.1 c.2 hx tC hcc.1).2
        (contour_z_range mapA w h c.1 c.2 hzc tC hcc.1).1
        (contour_z_range mapA w h c.1 c.2 hzc tC hcc.1).2
        (mul_self_nonneg _)
      apply LandOK_fields
      intro e he
      rw [List.mem_append, List.mem_singleton] at he
      rcases he with he | rfl
      · exact m5 e he
      · exact contour_elem_ok x0 x1 z0 z1 hb hz mapA w h c.1 c.2 hx hzc tO hco.1
          _ _ _ _ _ _ (mul_self_nonneg _)
    next hco =>
      exact LandOK_insertEmpty sq x0 x1 z0 z1 _ _ _ w h _ hb hz ⟨m1, m2, m3, m4, m5⟩
        (contour_x_range mapA w c.1 c.2 hx tC hcc.1).1
        (contour_x_range mapA w c.1 c.2 hx tC hcc.1).2
        (contour_z_range mapA w h c.1 c.2 hzc tC hcc.1).1
        (contour_z_range mapA w h c.1 c.2 hzc tC hcc.1).2
        (mul_self_nonneg _)
  next hcc =>
    split
    next hco =>
      apply LandOK_fields
      intro e he
      rw [List.mem_append, List.mem_singleton] at he
      rcases he with he | rfl
      · exact m5 e he
      · exact contour_elem_ok x0 x1 z0 z1 hb hz mapA w h c.1 c.2 hx hzc tO hco.1
          _ _ _ _ _ _ (mul_self_nonneg _)
    next hco =>
      exact ⟨m1, m2, m3, m4, m5⟩

theorem setStones_ok (sq sinQ cosQ : ℚ → ℚ) (rnd : ℕ → ℕ) (L : Landscape) (mapA : List ℕ)
    (w h : ℕ) (tO tC : ℤ) (x0 x1 z0 z1 : ℚ) (hb : x0 ≤ x1) (hz : z0 ≤ z1)
    (hst : LandOK x0 x1 z0 z1 L) :
    LandOK x0 x1 z0 z1 (setStones sq sinQ cosQ rnd L mapA w h tO tC) := by
  unfold setStones
  apply foldl_preserve (fun st : Landscape × ℕ => LandOK x0 x1 z0 z1 st.1)
  · intro s a ha hP
    exact setStonesCell_ok sq rnd mapA w h tO tC x0 x1 z0 z1 hb hz s a ha hP
  · exact foldl_preserve (fun st : Landscape × ℕ => LandOK x0 x1 z0 z1 st.1) _ _
      (fun s a _ hP => setStonesHeightCell_ok sinQ cosQ rnd mapA w h tO x0 x1 z0 z1 s a hP)
      (L, 0) hst

theorem setRoadsHeightCell_ok (sinQ cosQ : ℚ → ℚ) (mapA : List ℕ) (w h : ℕ) (tW : ℤ)
    (x0 x1 z0 z1 : ℚ) (L : Landscape) (c : ℕ × ℕ) (hst : LandOK x0 x1 z0 z1 L) :
    LandOK x0 x1 z0 z1 (setRoadsHeightCell sinQ cosQ mapA w h tW L c) := by
  simp only [setRoadsHeightCell]
  split_ifs with h1
  · exact LandOK_putHeight x0 x1 z0 z1 L _ _ _ hst
  · exact hst

theorem setRoadsOuter_ok (sq : ℚ → ℚ) (rnd : ℕ → ℕ) (mapA : List ℕ) (w h : ℕ) (tW : ℤ)
    (x0 x1 z0 z1 : ℚ) (hb : x0 ≤ x1) (hz : z0 ≤ z1)
    (st : Landscape × ℕ) (c : ℕ × ℕ) (hc : c ∈ cellList w h)
    (hst : LandOK x0 x1 z0 z1 st.1) :
    LandOK x0 x1 z0 z1 (setRoadsOuter sq rnd mapA w h tW st c).1 := by
  obtain ⟨hx, hzc⟩ := mem_cellList w h c hc
  obtain ⟨m1, m2, m3, m4, m5⟩ := hst
  simp only [setRoadsOuter]
  rw [m1, m2, m3, m4]
  split_ifs with h1 h2
  · apply LandOK_fields
    intro e he
    simp only [List.mem_append, List.mem_singleton] at he
    rcases he with (he | rfl) | rfl
    · exact m5 e he
    · exact contour_elem_ok x0 x1 z0 z1 hb hz mapA w h c.1 c.2 hx hzc tW h1.1
        _ _ _ _ _ _ (mul_self_nonneg _)
    · exact contour_elem_ok x0 x1 z0 z1 hb hz mapA w h c.1 c.2 hx hzc tW h1.1
        _ _ _ _ _ _ (mul_self_nonneg _)
  · apply LandOK_fields
    intro e he
    simp only [List.mem_append, List.mem_singleton] at he
    rcases he with he | rfl
    · exact m5 e he
    · exact contour_elem_ok x0 x1 z0 z1 hb hz mapA w h c.1 c.2 hx hzc tW h1.1
        _ _ _ _ _ _ (mul_self_nonneg _)
  · exact ⟨m1, m2, m3, m4, m5⟩

theorem setRoadsInner_ok (sq sinQ cosQ : ℚ → ℚ) (rnd : ℕ → ℕ) (mapA : List ℕ)
    (w h : ℕ) (tW : ℤ) (x0 x1 z0 z1 : ℚ) (hb : x0 ≤ x1) (hz : z0 ≤ z1)
    (st : Landscape × ℕ) (c : ℕ × ℕ) (hc : c ∈ cellList w h)
    (hst : LandOK x0 x1 z0 z1 st.1) :
    LandOK x0 x1 z0 z1 (setRoadsInner sq sinQ cosQ rnd mapA w h tW st c).1 := by
  obtain ⟨hx, hzc⟩ := mem_cellList w h c hc
  obtain ⟨m1, m2, m3, m4, m5⟩ := hst
  simp only [setRoadsInner]
  rw [m1, m2, m3, m4]
  split_ifs with h1 h2
  · apply LandOK_fields
    intro e he
    simp only [List.mem_append, List.mem_singleton] at he
    rcases he with (he | rfl) | rfl
    · exact m5 e he
    · exact contour_elem_ok x0 x1 z0 z1 hb hz mapA w h c.1 c.2 hx hzc tW h1.1
        _ _ _ _ _ _ (mul_self_nonneg _)
    · exact contour_elem_ok x0 x1 z0 z1 hb hz mapA w h c.1 c.2 hx hzc tW h1.1
        _ _ _ _ _ _ (mul_self_nonneg _)
  · apply LandOK_fields
    intro e he
    simp only [List.mem_append, List.mem_singleton] at he
    rcases he with he | rfl
    · exact m5 e he
    · exact contour_elem_ok x0 x1 z0 z1 hb hz mapA w h c.1 c.2 hx hzc tW h1.1
        _ _ _ _ _ _ (mul_self_nonneg _)
  · exact ⟨m1, m2, m3, m4, m5⟩

theorem setRoadsCleanup_ok (sq : ℚ → ℚ) (mapA : List ℕ) (w h : ℕ) (tC : ℤ)
    (x0 x1 z0 z1 : ℚ) (hb : x0 ≤ x1) (hz : z0 ≤ z1)
    (L : Landscape) (c : ℕ × ℕ) (hc : c ∈ cellList w h)
    (hst : LandOK x0 x1 z0 z1 L) :
    LandOK x0 x1 z0 z1 (setRoadsCleanup sq mapA w h tC L c) := by
  obtain ⟨hx, hzc⟩ := mem_cellList w h c hc
  simp only [setRoadsCleanup]
  split_ifs with h1
  · exact LandOK_insertEmpty sq x0 x1 z0 z1 _ _ _ w h _ hb hz hst
      (contour_x_range mapA w c.1 c.2 hx tC h1.1).1
      (contour_x_range mapA w c.1 c.2 hx tC h1.1).2
      (contour_z_range mapA w h c.1 c.2 hzc tC h1.1).1
      (contour_z_range mapA w h c.1 c.2 hzc tC h1.1).2
      (mul_self_nonneg _)
  · exact hst

theorem setRoadsCell_ok (sq sinQ cosQ : ℚ → ℚ) (rnd : ℕ → ℕ) (mapA : List ℕ)
    (w h : ℕ) (tWO tWI tC : ℤ) (x0 x1 z0 z1 : ℚ) (hb : x0 ≤ x1) (hz : z0 ≤ z1)
    (st : Landscape × ℕ) (c : ℕ × ℕ) (hc : c ∈ cellList w h)
    (hst : LandOK x0 x1 z0 z1 st.1) :
    LandOK x0 x1 z0 z1 (setRoadsCell sq sinQ cosQ rnd mapA w h tWO tWI tC st c).1 := by
  simp only [setRoadsCell]
  exact setRoadsCleanup_ok sq mapA w h tC x0 x1 z0 z1 hb hz _ c hc
    (setRoadsInner_ok sq sinQ cosQ rnd mapA w h tWI x0 x1 z0 z1 hb hz _ c hc
      (setRoadsOuter_ok sq rnd mapA w h tWO x0 x1 z0 z1 hb hz st c hc hst))

theorem setRoads_ok (sq sinQ cosQ : ℚ → ℚ) (rnd : ℕ → ℕ) (L : Landscape) (mapA : List ℕ)
    (w h : ℕ) (tWO tWI tC : ℤ) (x0 x1 z0 z1 : ℚ) (hb : x0 ≤ x1) (hz : z0 ≤ z1)
    (hst : LandOK x0 x1 z0 z1 L) :
    LandOK x0 x1 z0 z1 (setRoads sq sinQ cosQ rnd L mapA w h tWO tWI tC) := by
  unfold setRoads
  apply foldl_preserve (fun st : Landscape × ℕ => LandOK x0 x1 z0 z1 st.1)
  · intro s a ha hP
    exact setRoadsCell_ok sq sinQ cosQ rnd mapA w h tWO tWI tC x0 x1 z0 z1 hb hz s a ha hP
  · exact foldl_preserve (LandOK x0 x1 z0 z1) _ _
      (fun s a _ hP => setRoadsHeightCell_ok sinQ cosQ mapA w h tWO x0 x1 z0 z1 s a hP)
      L hst

/-- The `Landscape::Landscape(x0, z0, x1, z1, y0, y1)` constructor: empty
element list, `minX = x0`, `maxX = x1`, `minZ = z0`, `maxZ = z1`,
`minY = y0`, `maxY = y1`, no heightmap installed yet. -/
def mkLandscape (x0 z0 x1 z1 y0 y1 : ℚ) : Landscape :=
  ⟨[], x0, x1, y0, y1, z0, z1, 0, 0, [], []⟩

/-- The element-list invariant of the spec, stated over the landscape's own
stored bounds: the bounds are ordered and every element satisfies
`minX ≤ x ≤ maxX`, `minZ ≤ z ≤ maxZ` and `0 ≤ distanceThresholdSquared`. -/
def LandInv (L : Landscape) : Prop :=
  L.minX ≤ L.maxX ∧ L.minZ ≤ L.maxZ ∧
  ∀ e ∈ L.scape, ElemOKB L.minX L.maxX L.minZ L.maxZ e

/-- The landscapes reachable from a constructor call with ordered bounds by
any sequence of the generation procedures, where every direct `insertEmpty`
call keeps its element coordinates inside the `w × h` grid and its stored
threshold nonnegative. -/
inductive ReachL : Landscape → Prop where
  | init (x0 z0 x1 z1 y0 y1 : ℚ) (hx : x0 ≤ x1) (hz : z0 ≤ z1) :
      ReachL (mkLandscape x0 z0 x1 z1 y0 y1)
  | heightMap (sq : ℚ → ℚ) (L : Landscape) (mask mapA : List ℕ) (w h sx sz : ℕ)
      (df sth : ℚ) (boden : List ℕ) (hL : ReachL L) :
      ReachL (setHeightMap sq L mask mapA w h sx sz df sth boden)
  | objects (L : Landscape) (rgba : List ℕ) (w h : ℕ) (hL : ReachL L) :
      ReachL (setObjects L rgba w h)
  | trees (rnd : ℕ → ℕ) (L : Landscape) (mask mapA : List ℕ) (w h rm : ℕ)
      (hL : ReachL L) : ReachL (setTrees rnd L mask mapA w h rm)
  | grass (sq sinQ cosQ : ℚ → ℚ) (rnd : ℕ → ℕ) (L : Landscape) (mask mapA : List ℕ)
      (w h rm : ℕ) (hL : ReachL L) : ReachL (setGrass sq sinQ cosQ rnd L mask mapA w h rm)
  | flowers (sinQ cosQ : ℚ → ℚ) (rnd : ℕ → ℕ) (L : Landscape) (mask mapA : List ℕ)
      (w h rm : ℕ) (hL : ReachL L) : ReachL (setFlowers sinQ cosQ rnd L mask mapA w h rm)
  | stones (sq sinQ cosQ : ℚ → ℚ) (rnd : ℕ → ℕ) (L : Landscape) (mapA : List ℕ)
      (w h : ℕ) (tO tC : ℤ) (hL : ReachL L) :
      ReachL (setStones sq sinQ cosQ rnd L mapA w h tO tC)
  | water (sq : ℚ → ℚ) (L : Landscape) (mapA : List ℕ) (w h : ℕ) (tO tC : ℤ)
      (hL : ReachL L) : ReachL (setWater sq L mapA w h tO tC)
  | roads (sq sinQ cosQ : ℚ → ℚ) (rnd : ℕ → ℕ) (L : Landscape) (mapA : List ℕ)
      (w h : ℕ) (tWO tWI tC : ℤ) (hL : ReachL L) :
      ReachL (setRoads sq sinQ cosQ rnd L mapA w h tWO tWI tC)
  | insertE (sq : ℚ → ℚ) (L : Landscape) (x2 z2 : ℚ) (w h : ℕ) (df : ℚ)
      (hx2a : 0 ≤ x2) (hx2b : x2 ≤ (w : ℚ)) (hz2a : 0 ≤ z2) (hz2b : z2 ≤ (h : ℚ))
      (hdf : 0 ≤ df) (hL : ReachL L) : ReachL (insertEmpty sq L x2 z2 w h df)

theorem LandInv_of_frame (L L' : Landscape) (o1 : L'.minX = L.minX)
    (o2 : L'.maxX = L.maxX) (o3 : L'.minZ = L.minZ) (o4 : L'.maxZ = L.maxZ)
    (o5 : ∀ e ∈ L'.scape, ElemOKB L.minX L.maxX L.minZ L.maxZ e)
    (hb : L.minX ≤ L.maxX) (hz : L.minZ ≤ L.maxZ) : LandInv L' := by
  refine ⟨?_, ?_, ?_⟩
  · rw [o1, o2]; exact hb
  · rw [o3, o4]; exact hz
  · intro e he
    rw [o1, o2, o3, o4]
    exact o5 e he

theorem LandInv_of_LandOK (L' : Landscape) (x0 x1 z0 z1 : ℚ)
    (hb : x0 ≤ x1) (hz : z0 ≤ z1) (hO : LandOK x0 x1 z0 z1 L') : LandInv L' := by
  obtain ⟨m1, m2, m3, m4, m5⟩ := hO
  refine ⟨?_, ?_, ?_⟩
  · rw [m1, m2]; exact hb
  · rw [m3, m4]; exact hz
  · intro e he
    rw [m1, m2, m3, m4]
    exact m5 e he

theorem ReachL_inv (L : Landscape) (hL : ReachL L) : LandInv L := by
  induction hL with
  | init x0 z0 x1 z1 y0 y1 hx hz =>
      refine ⟨hx, hz, fun e he => ?_⟩
      simp only [mkLandscape] at he
      exact absurd he (List.not_mem_nil e)
  | heightMap sq L mask mapA w h sx sz df sth boden hL ih =>
      obtain ⟨hb, hz, h5⟩ := ih
      obtain ⟨o1, o2, o3, o4, o5⟩ := setHeightMap_ok sq L mask mapA w h sx sz df sth boden hb hz h5
      exact LandInv_of_frame L _ o1 o2 o3 o4 o5 hb hz
  | objects L rgba w h hL ih =>
      obtain ⟨hb, hz, h5⟩ := ih
      obtain ⟨o1, o2, o3, o4, o5⟩ := setObjects_ok L rgba w h hb hz h5
      exact LandInv_of_frame L _ o1 o2 o3 o4 o5 hb hz
  | trees rnd L mask mapA w h rm hL ih =>
      obtain ⟨hb, hz, h5⟩ := ih
      obtain ⟨o1, o2, o3, o4, o5⟩ := setTrees_ok rnd L mask mapA w h rm hb hz h5
      exact LandInv_of_frame L _ o1 o2 o3 o4 o5 hb hz
  | grass sq sinQ cosQ rnd L mask mapA w h rm hL ih =>
      obtain ⟨hb, hz, h5⟩ := ih
      obtain ⟨o1, o2, o3, o4, o5⟩ := setGrass_ok sq sinQ cosQ rnd L mask mapA w h rm hb hz h5
      exact LandInv_of_frame L _ o1 o2 o3 o4 o5 hb hz
  | flowers sinQ cosQ rnd L mask mapA w h rm hL ih =>
      obtain ⟨hb, hz, h5⟩ := ih
      obtain ⟨o1, o2, o3, o4, o5⟩ := setFlowers_ok sinQ cosQ rnd L mask mapA w h rm hb hz h5
      exact LandInv_of_frame L _ o1 o2 o3 o4 o5 hb hz
  | stones sq sinQ cosQ rnd L mapA w h tO tC hL ih =>
      obtain ⟨hb, hz, h5⟩ := ih
      exact LandInv_of_LandOK _ L.minX L.maxX L.minZ L.maxZ hb hz
        (setStones_ok sq sinQ cosQ rnd L mapA w h tO tC L.minX L.maxX L.minZ L.maxZ hb hz
          ⟨rfl, rfl, rfl, rfl, h5⟩)
  | water sq L mapA w h tO tC hL ih =>
      obtain ⟨hb, hz, h5⟩ := ih
      exact LandInv_of_LandOK _ L.minX L.maxX L.minZ L.maxZ hb hz
        (setWater_ok sq L mapA w h tO tC L.minX L.maxX L.minZ L.maxZ hb hz
          ⟨rfl, rfl, rfl, rfl, h5⟩)
  | roads sq sinQ cosQ rnd L mapA w h tWO tWI tC hL ih =>
      obtain ⟨hb, hz, h5⟩ := ih
      exact LandInv_of_LandOK _ L.minX L.maxX L.minZ L.maxZ hb hz
        (setRoads_ok sq sinQ cosQ rnd L mapA w h tWO tWI tC L.minX L.maxX L.minZ L.maxZ hb hz
          ⟨rfl, rfl, rfl, rfl, h5⟩)
  | insertE sq L x2 z2 w h df hx2a hx2b hz2a hz2b hdf hL ih =>
      obtain ⟨hb, hz, h5⟩ := ih
      exact LandInv_of_LandOK _ L.minX L.maxX L.minZ L.maxZ hb hz
        (LandOK_insertEmpty sq L.minX L.maxX L.minZ L.maxZ L x2 z2 w h df hb hz
          ⟨rfl, rfl, rfl, rfl, h5⟩ hx2a hx2b hz2a hz2b hdf)

/-- C8 (amended): starting from a constructor call with ordered bounds, and
with every direct `insertEmpty` call restricted to `0 ≤ x2 ≤ w`,
`0 ≤ z2 ≤ h` and `0 ≤ distFact`, every landscape reachable by any sequence
of the generation procedures (`setHeightMap`, `setObjects`, `setTrees`,
`setGrass`, `setFlowers`, `setStones`, `setWater`, `setRoads`,
`insertEmpty`) satisfies the element-list invariant: for every element,
`minX ≤ x ≤ maxX`, `minZ ≤ z ≤ maxZ` and `distanceThresholdSquared ≥ 0`.
The restriction on direct `insertEmpty` calls is necessary; see the
counterexample. -/
theorem claim_c8_amended (L : Landscape) (hL : ReachL L) : LandInv L :=
  ReachL_inv L hL

theorem claim_c8_amended_witness : LandInv (mkLandscape 0 0 1 1 0 100) :=
  claim_c8_amended _ (ReachL.init 0 0 1 1 0 100 (by norm_num) (by norm_num))

/-- C8 (counterexample to the unrestricted claim): `insertEmpty` stores the
element at `x = (maxX - minX) * x2 / w + minX` without clamping `x2`, so a
call with `x2 = -20` on a fresh `0..10` landscape appends an element lying
left of `minX`, violating `minX ≤ x`. -/
theorem claim_c8_counterexample :
    ∃ e ∈ (insertEmpty (fun q => q) (mkLandscape 0 0 10 10 0 100) (-20) 0 10 10 1).scape,
      e.x < (insertEmpty (fun q => q) (mkLandscape 0 0 10 10 0 100) (-20) 0 10 10 1).minX := by
  simp only [insertEmpty, mkLandscape]
  refine ⟨_, List.mem_append_right _ (List.mem_singleton_self _), ?_⟩
  norm_num

/-!
## Claim C1: the order of the collected element list (T_DLNAY.CPP)
-/

/-- `elementSortFunc` of T_DLNAY.CPP with the camera position
`(cx, cy, cz)` (the file-static `eSortCX/Y/Z`): the C `(int)` casts
truncate the `float` squared distances toward zero, and the function
returns `-((int)(d1) - (int)(d0))`. -/
def elementSortFunc (cx cy cz : ℚ) (v0 v1 : LandscapeElement) : ℤ :=
  let dx0 := v0.x - cx
  let dy0 := v0.y - cy
  let dz0 := v0.z - cz
  let dx1 := v1.x - cx
  let dy1 := v1.y - cy
  let dz1 := v1.z - cz;
  -(truncQ (dx1 * dx1 + dy1 * dy1 + dz1 * dz1) - truncQ (dx0 * dx0 + dy0 * dy0 + dz0 * dz0))

/-- The `(int)`-truncated squared camera distance that `elementSortFunc`
orders by. -/
def truncDistSq (cx cy cz : ℚ) (e : LandscapeElement) : ℤ :=
  truncQ ((e.x - cx) * (e.x - cx) + (e.y - cy) * (e.y - cy) + (e.z - cz) * (e.z - cz))

/-- `LandscapeRaw::collectElements`: collect from the owned `Landscape`,
then `qsort` the collected pointers with `elementSortFunc`. -/
def collectElements (prevOut : List LandscapeElement) (L : Landscape)
    (cx cy cz detailScale : ℚ) : List LandscapeElement :=
  sortLe (fun a b => decide (elementSortFunc cx cy cz a b ≤ 0))
    (collectLandscape prevOut L cx cy cz detailScale)

theorem elementSortFunc_le_iff (cx cy cz : ℚ) (a b : LandscapeElement) :
    elementSortFunc cx cy cz a b ≤ 0 ↔
      truncDistSq cx cy cz a ≤ truncDistSq cx cy cz b := by
  simp only [elementSortFunc, truncDistSq]
  omega

theorem collectElements_sorted (prevOut : List LandscapeElement) (L : Landscape)
    (cx cy cz k : ℚ) :
    (collectElements prevOut L cx cy cz k).Pairwise
      (fun a b => truncDistSq cx cy cz a ≤ truncDistSq cx cy cz b) := by
  have h := sortLe_pairwise (fun a b => decide (elementSortFunc cx cy cz a b ≤ 0))
    (fun a b => by
      rcases le_total (truncDistSq cx cy cz a) (truncDistSq cx cy cz b) with hle | hle
      · exact Or.inl (decide_eq_true ((elementSortFunc_le_iff cx cy cz a b).2 hle))
      · exact Or.inr (decide_eq_true ((elementSortFunc_le_iff cx cy cz b a).2 hle)))
    (fun a b c hab hbc => by
      have h1 := (elementSortFunc_le_iff cx cy cz a b).1 (of_decide_eq_true hab)
      have h2 := (elementSortFunc_le_iff cx cy cz b c).1 (of_decide_eq_true hbc)
      exact decide_eq_true ((elementSortFunc_le_iff cx cy cz a c).2 (le_trans h1 h2)))
    (collectLandscape prevOut L cx cy cz k)
  refine h.imp (fun hab => ?_)
  exact (elementSortFunc_le_iff cx cy cz _ _).1 (of_decide_eq_true hab)

/-- C1 (amended): after `LandscapeRaw::collectElements`, the collected
element list is ordered by ASCENDING camera distance (nearest first): for
every camera position and every pair of entries in order, the earlier
entry's `(int)`-truncated squared distance to the camera is less than or
equal to the later entry's.  `elementSortFunc` returns
`-((int)d1 - (int)d0)`, which is `≤ 0` exactly when `d0 ≤ d1`, and the
code's own comment says "sort by camera distance (nearest first)". -/
theorem claim_c1_amended (prevOut : List LandscapeElement) (L : Landscape)
    (cx cy cz k : ℚ) :
    (collectElements prevOut L cx cy cz k).Pairwise
      (fun a b => truncDistSq cx cy cz a ≤ truncDistSq cx cy cz b) :=
  collectElements_sorted prevOut L cx cy cz k

/-- C1 (counterexample to the spec's descending order): two elements at
distances `1` and `4` from a camera at the origin are both collected and
come out nearest-first, so the farthest-first (descending) ordering the
spec claims fails on the very first adjacent pair. -/
theorem claim_c1_counterexample :
    ¬ (collectElements [] ⟨[⟨0, 0, 0, 0, 100, 1, 0, 0⟩, ⟨0, 0, 0, 0, 100, 2, 0, 0⟩],
        0, 10, 0, 10, 0, 10, 0, 0, [], []⟩ 0 0 0 1).Pairwise
      (fun a b => truncDistSq 0 0 0 b ≤ truncDistSq 0 0 0 a) := by
  unfold collectElements collectLandscape
  norm_num [collectGo, sortLe, insertLe, elementSortFunc, truncDistSq, truncQ,
    List.pairwise_cons]
